import Mathlib

/-!
Verification development for the killer-game server (`server.js`).

The server implements a social elimination game: players of a game are
arranged in a random single cycle by the start-game handler, each player
targeting the next shuffled player; eliminations re-link the cycle; a
summary endpoint reports winner, kill history and sorted kill counts.

This file shallowly embeds the relevant handlers over an explicit database
state (the `games`, `players` and `kill_history` relations) and proves the
stated properties.  Randomness (`Math.random`) is modelled by explicit
streams of numbers: every theorem quantifies over the stream, so results
hold for every possible random outcome.
-/

namespace KillerGame

open List

/-! ### Shuffling (function `shuffleArray`, Fisher-Yates) -/

/-- One swap `[a[i], a[j]] = [a[j], a[i]]` of the Fisher-Yates loop.
Out-of-range indices leave the list unchanged (never happens in the source,
where both indices are in range). -/
def listSwap {α : Type} (a : List α) (i j : Nat) : List α :=
  match a[i]?, a[j]? with
  | some x, some y => (a.set i y).set j x
  | _, _ => a

/-- The loop `for (let i = a.length - 1; i > 0; i--)` of `shuffleArray`,
counting `i` down from the first argument to `1`.  The random draw
`Math.floor(Math.random() * (i + 1))` at step `i` is modelled as
`rand i % (i + 1)`, which ranges over exactly the same values `0..i`. -/
def fisherAux {α : Type} (rand : Nat → Nat) : List α → Nat → List α
  | a, 0 => a
  | a, i+1 => fisherAux rand (listSwap a (i+1) (rand (i+1) % (i+2))) i

/-- `shuffleArray(arr)` from `server.js`: Fisher-Yates shuffle of a copy of
the array, driven by the random stream `rand`. -/
def shuffleArray {α : Type} (arr : List α) (rand : Nat → Nat) : List α :=
  fisherAux rand arr (arr.length - 1)

/-- After `a.set i y` followed by `.set j x`, where `x`, `y` were the
elements at `i`, `j`, the result is a permutation of `a`. -/
theorem cons_set_perm {α : Type} (t : List α) (m : Nat) (y a : α)
    (h : t[m]? = some y) : y :: t.set m a ~ a :: t := by
  induction t generalizing m with
  | nil => simp at h
  | cons b t ih =>
    cases m with
    | zero =>
      simp only [List.getElem?_cons_zero, Option.some.injEq] at h
      subst h
      simpa using List.Perm.swap a b t
    | succ m =>
      simp only [List.getElem?_cons_succ] at h
      calc y :: b :: t.set m a ~ b :: y :: t.set m a := List.Perm.swap b y _
        _ ~ b :: (a :: t) := (ih m h).cons b
        _ ~ a :: b :: t := List.Perm.swap a b t

theorem set_set_perm {α : Type} (t : List α) (i j : Nat) {x y : α}
    (hx : t[i]? = some x) (hy : t[j]? = some y) :
    (t.set i y).set j x ~ t := by
  induction t generalizing i j with
  | nil => simp at hx
  | cons b t ih =>
    cases i with
    | zero =>
      simp only [List.getElem?_cons_zero, Option.some.injEq] at hx
      subst hx
      cases j with
      | zero =>
        simp only [List.getElem?_cons_zero, Option.some.injEq] at hy
        subst hy
        simp
      | succ m =>
        simp only [List.getElem?_cons_succ] at hy
        simpa using cons_set_perm t m y b hy
    | succ n =>
      simp only [List.getElem?_cons_succ] at hx
      cases j with
      | zero =>
        simp only [List.getElem?_cons_zero, Option.some.injEq] at hy
        subst hy
        simpa using cons_set_perm t n x b hx
      | succ m =>
        simp only [List.getElem?_cons_succ] at hy
        simpa using (ih n m hx hy).cons b

theorem listSwap_perm {α : Type} (a : List α) (i j : Nat) :
    listSwap a i j ~ a := by
  unfold listSwap
  cases hx : a[i]? with
  | none => exact List.Perm.refl a
  | some x =>
    cases hy : a[j]? with
    | none => exact List.Perm.refl a
    | some y => exact set_set_perm a i j hx hy

theorem fisherAux_perm {α : Type} (rand : Nat → Nat) (a : List α) (k : Nat) :
    fisherAux rand a k ~ a := by
  induction k generalizing a with
  | zero => exact List.Perm.refl a
  | succ i ih =>
    exact (ih _).trans (listSwap_perm a (i+1) (rand (i+1) % (i+2)))

/-- `shuffleArray` returns a permutation of its input, whatever the random
stream produces. -/
theorem shuffleArray_perm {α : Type} (arr : List α) (rand : Nat → Nat) :
    shuffleArray arr rand ~ arr :=
  fisherAux_perm rand arr (arr.length - 1)

/-! ### The single-cycle target assignment

The start-game handler runs
`targetId = shuffled[(i + 1) % shuffled.length]` for the player
`shuffled[i]`.  `cycleTarget shuffled` is the resulting target map. -/

/-- Target of player `x` under the start-game assignment built from the
shuffled id list `l`: the successor (with wrap-around) of `x` in `l`. -/
def cycleTarget (l : List Nat) (x : Nat) : Option Nat :=
  match l.findIdx? (fun y => y == x) with
  | some i => l[(i+1) % l.length]?
  | none => none

/-- Following the target map `k` times. -/
def iterTarget (t : Nat → Option Nat) : Nat → Nat → Option Nat
  | 0, x => some x
  | k+1, x => (t x).bind (iterTarget t k)

theorem nodup_findIdx_getElem (l : List Nat) (hnd : l.Nodup)
    (i : Nat) (h : i < l.length) :
    l.findIdx? (fun y => y == l.get ⟨i, h⟩) = some i := by
  rw [List.findIdx?_eq_some_iff_getElem]
  refine ⟨h, by simp, ?_⟩
  intro j hj
  have hj' : j < l.length := Nat.lt_trans hj h
  simp only [List.get_eq_getElem, beq_iff_eq]
  intro heq
  exact absurd ((hnd.getElem_inj_iff).mp heq) (Nat.ne_of_lt hj)

theorem cycleTarget_not_mem {l : List Nat} {x : Nat} (hx : x ∉ l) :
    cycleTarget l x = none := by
  unfold cycleTarget
  have : l.findIdx? (fun y => y == x) = none := by
    rw [List.findIdx?_eq_none_iff]
    intro y hy
    simp only [beq_eq_false_iff_ne, ne_eq]
    intro heq; exact hx (heq ▸ hy)
  rw [this]

theorem cycleTarget_getElem (l : List Nat) (hnd : l.Nodup)
    (i : Nat) (h : i < l.length) :
    cycleTarget l (l.get ⟨i, h⟩) =
      some (l.get ⟨(i+1) % l.length,
        Nat.mod_lt _ (Nat.lt_of_le_of_lt (Nat.zero_le i) h)⟩) := by
  unfold cycleTarget
  rw [nodup_findIdx_getElem l hnd i h]
  simp [List.getElem?_eq_getElem]

theorem iterTarget_cycleTarget (l : List Nat) (hnd : l.Nodup)
    (k : Nat) (i : Nat) (h : i < l.length) :
    iterTarget (cycleTarget l) k (l.get ⟨i, h⟩) =
      some (l.get ⟨(i+k) % l.length,
        Nat.mod_lt _ (Nat.lt_of_le_of_lt (Nat.zero_le i) h)⟩) := by
  induction k generalizing i with
  | zero =>
    simp [iterTarget, Nat.mod_eq_of_lt h]
  | succ k ih =>
    have hpos : 0 < l.length := Nat.lt_of_le_of_lt (Nat.zero_le i) h
    rw [iterTarget, cycleTarget_getElem l hnd i h]
    rw [Option.some_bind]
    rw [ih ((i+1) % l.length) (Nat.mod_lt _ hpos)]
    congr 1
    apply congrArg
    apply Fin.ext
    show ((i+1) % l.length + k) % l.length = (i + (k+1)) % l.length
    rw [Nat.mod_add_mod]
    congr 1
    omega

/-- C1: for every set of at least two alive player identifiers and every
random outcome, the start-game target assignment (shuffle, then target the
next shuffled identifier with wrap-around) is a single cycle: following
target links from any player returns to that player after exactly
`n` steps, reaches every player in fewer than `n` steps, never repeats a
player within the first `n` steps, and assigns no player to itself. -/
theorem claim1_start_cycle (ids : List Nat) (rand : Nat → Nat)
    (hnd : ids.Nodup) (h2 : 2 ≤ ids.length) :
    ∀ x ∈ ids,
      iterTarget (cycleTarget (shuffleArray ids rand)) ids.length x = some x ∧
      (∀ y ∈ ids, ∃ k, k < ids.length ∧
        iterTarget (cycleTarget (shuffleArray ids rand)) k x = some y) ∧
      (∀ j k, j < ids.length → k < ids.length →
        iterTarget (cycleTarget (shuffleArray ids rand)) j x =
          iterTarget (cycleTarget (shuffleArray ids rand)) k x → j = k) ∧
      cycleTarget (shuffleArray ids rand) x ≠ some x := by
  intro x hx
  have hperm : shuffleArray ids rand ~ ids := shuffleArray_perm ids rand
  set l := shuffleArray ids rand with hldef
  have hndl : l.Nodup := (hperm.nodup_iff).mpr hnd
  have hlen : l.length = ids.length := hperm.length_eq
  have hpos : 0 < l.length := by omega
  have hxl : x ∈ l := (hperm.mem_iff).mpr hx
  obtain ⟨i, hi, hxi⟩ := List.getElem_of_mem hxl
  have hxg : l.get ⟨i, hi⟩ = x := by simpa using hxi
  refine ⟨?_, ?_, ?_, ?_⟩
  · rw [← hxg, ← hlen, iterTarget_cycleTarget l hndl l.length i hi]
    apply congrArg
    apply congrArg
    apply Fin.ext
    show (i + l.length) % l.length = i
    rw [Nat.add_mod_right]
    exact Nat.mod_eq_of_lt hi
  · intro y hy
    have hyl : y ∈ l := (hperm.mem_iff).mpr hy
    obtain ⟨j, hj, hyj⟩ := List.getElem_of_mem hyl
    refine ⟨(j + l.length - i) % l.length, ?_, ?_⟩
    · rw [← hlen]; exact Nat.mod_lt _ hpos
    · rw [← hxg, iterTarget_cycleTarget l hndl _ i hi]
      have hidx : (i + (j + l.length - i) % l.length) % l.length = j := by
        rw [Nat.add_mod_mod]
        have : i + (j + l.length - i) = j + l.length := by omega
        rw [this, Nat.add_mod_right]
        exact Nat.mod_eq_of_lt hj
      apply congrArg
      rw [← hyj]
      apply congrArg
      exact Fin.ext hidx
  · intro j k hj hk heq
    rw [← hlen] at hj hk
    rw [← hxg, iterTarget_cycleTarget l hndl j i hi,
      iterTarget_cycleTarget l hndl k i hi] at heq
    have hget := Option.some.inj heq
    simp only [List.get_eq_getElem] at hget
    have hidx : (i + j) % l.length = (i + k) % l.length :=
      (hndl.getElem_inj_iff).mp hget
    have hmodeq : Nat.ModEq l.length (i + j) (i + k) := hidx
    have hjk : Nat.ModEq l.length j k := Nat.ModEq.add_left_cancel' i hmodeq
    have : j % l.length = k % l.length := hjk
    rw [Nat.mod_eq_of_lt hj, Nat.mod_eq_of_lt hk] at this
    exact this
  · intro hcontra
    rw [← hxg, cycleTarget_getElem l hndl i hi] at hcontra
    have hget := Option.some.inj hcontra
    simp only [List.get_eq_getElem] at hget
    have hidx : (i + 1) % l.length = i := (hndl.getElem_inj_iff).mp hget
    rcases Nat.lt_or_ge (i + 1) l.length with hlt | hge
    · rw [Nat.mod_eq_of_lt hlt] at hidx; omega
    · have heqn : i + 1 = l.length := by omega
      rw [heqn, Nat.mod_self] at hidx
      omega

/-- Witness for C1 at a concrete input: three players `10, 20, 30` and the
constant-zero random stream. -/
theorem claim1_start_cycle_witness :
    ([10, 20, 30] : List Nat).Nodup ∧ 2 ≤ ([10, 20, 30] : List Nat).length ∧
    (∀ x ∈ ([10, 20, 30] : List Nat),
      iterTarget (cycleTarget (shuffleArray [10, 20, 30] (fun _ => 0)))
        ([10, 20, 30] : List Nat).length x = some x ∧
      (∀ y ∈ ([10, 20, 30] : List Nat), ∃ k,
        k < ([10, 20, 30] : List Nat).length ∧
        iterTarget (cycleTarget (shuffleArray [10, 20, 30] (fun _ => 0))) k x
          = some y) ∧
      (∀ j k, j < ([10, 20, 30] : List Nat).length →
        k < ([10, 20, 30] : List Nat).length →
        iterTarget (cycleTarget (shuffleArray [10, 20, 30] (fun _ => 0))) j x =
          iterTarget (cycleTarget (shuffleArray [10, 20, 30] (fun _ => 0))) k x
          → j = k) ∧
      cycleTarget (shuffleArray [10, 20, 30] (fun _ => 0)) x ≠ some x) :=
  ⟨by decide, by decide,
    claim1_start_cycle [10, 20, 30] (fun _ => 0) (by decide) (by decide)⟩

/-! ### Cycle contraction (resolve-kill re-linking) -/

theorem get_append_l {α : Type} (xs ys : List α) (i : Nat)
    (h : i < xs.length) (h2 : i < (xs ++ ys).length) :
    (xs ++ ys).get ⟨i, h2⟩ = xs.get ⟨i, h⟩ := by
  simp [List.get_eq_getElem, List.getElem_append_left h]

theorem get_append_r {α : Type} (xs ys : List α) (i : Nat)
    (h : i < ys.length) (h2 : xs.length + i < (xs ++ ys).length) :
    (xs ++ ys).get ⟨xs.length + i, h2⟩ = ys.get ⟨i, h⟩ := by
  simp only [List.get_eq_getElem]
  rw [List.getElem_append_right (by omega)]
  congr 1
  omega

theorem get_mid (l₁ l₂ : List Nat) (v : Nat) (i : Nat) (h : i < l₂.length)
    (h2 : l₁.length + 1 + i < (l₁ ++ v :: l₂).length) :
    (l₁ ++ v :: l₂).get ⟨l₁.length + 1 + i, h2⟩ = l₂.get ⟨i, h⟩ := by
  have h3 : (v :: l₂).length ≤ l₂.length + 1 := by simp
  have hnew : l₁.length + (1 + i) < (l₁ ++ v :: l₂).length := by omega
  have := get_append_r l₁ (v :: l₂) (1 + i) (by simp; omega) hnew
  have harg : l₁.length + 1 + i = l₁.length + (1 + i) := by omega
  rw [show (⟨l₁.length + 1 + i, h2⟩ : Fin (l₁ ++ v :: l₂).length)
      = ⟨l₁.length + (1 + i), hnew⟩ from Fin.ext harg, this]
  have : (1 + i) = i + 1 := by omega
  simp [List.get_eq_getElem, this]

theorem get_at_v (l₁ l₂ : List Nat) (v : Nat)
    (h : l₁.length < (l₁ ++ v :: l₂).length) :
    (l₁ ++ v :: l₂).get ⟨l₁.length, h⟩ = v := by
  simp only [List.get_eq_getElem]
  rw [List.getElem_append_right (by omega)]
  simp

theorem nodup_get_iff (l : List Nat) (hnd : l.Nodup) {a b : Nat}
    (ha : a < l.length) (hb : b < l.length) :
    l.get ⟨a, ha⟩ = l.get ⟨b, hb⟩ ↔ a = b := by
  rw [hnd.get_inj_iff]
  exact ⟨fun h => congrArg Fin.val h, fun h => Fin.ext h⟩

theorem nodup_getElem?_inj (l : List Nat) (hnd : l.Nodup) {a b x : Nat}
    (ha : l[a]? = some x) (hb : l[b]? = some x) : a = b := by
  obtain ⟨ha1, ha2⟩ := List.getElem?_eq_some_iff.mp ha
  obtain ⟨hb1, hb2⟩ := List.getElem?_eq_some_iff.mp hb
  exact hnd.getElem_inj_iff.mp (ha2.trans hb2.symm)

/-- `cycleTarget` through an `Option`-valued index fact: if `x` sits at
position `i` of the shuffled list, its target is the entry at
`(i+1) % length`. -/
theorem cycleTarget_of_getElem? (l : List Nat) (hnd : l.Nodup) {i x : Nat}
    (h : l[i]? = some x) : cycleTarget l x = l[(i+1) % l.length]? := by
  obtain ⟨hlt, hx⟩ := List.getElem?_eq_some_iff.mp h
  have hxg : l.get ⟨i, hlt⟩ = x := by simpa using hx
  rw [← hxg, cycleTarget_getElem l hnd i hlt]
  rw [List.getElem?_eq_getElem (Nat.mod_lt _ (Nat.lt_of_le_of_lt (Nat.zero_le i) hlt))]
  simp

/-- Cycle contraction.  If the id list `l₁ ++ v :: l₂` carries the cyclic
successor assignment, `v` is eliminated and its predecessor `k` is re-linked
to `v`'s successor, then the remaining ids `l₂ ++ l₁` again carry exactly
the cyclic successor assignment of that list.  This is the re-linking step
of the resolve-kill handler. -/
theorem cycleTarget_contract (l₁ l₂ : List Nat) (v k : Nat)
    (hnd : (l₁ ++ v :: l₂).Nodup) (h3 : 3 ≤ (l₁ ++ v :: l₂).length)
    (hk : cycleTarget (l₁ ++ v :: l₂) k = some v) :
    (l₂ ++ l₁).Nodup ∧
    k ∈ l₂ ++ l₁ ∧
    cycleTarget (l₁ ++ v :: l₂) v ≠ some k ∧
    (∀ x, x ∈ l₂ ++ l₁ ↔ (x ∈ l₁ ++ v :: l₂ ∧ x ≠ v)) ∧
    (∀ x ∈ l₂ ++ l₁,
      cycleTarget (l₂ ++ l₁) x =
        if x = k then cycleTarget (l₁ ++ v :: l₂) v
        else cycleTarget (l₁ ++ v :: l₂) x) := by
  have hm1 : (l₁ ++ v :: l₂).length = l₁.length + 1 + l₂.length := by
    rw [List.length_append, List.length_cons]
    omega
  have hlen2 : (l₂ ++ l₁).length = l₂.length + l₁.length :=
    List.length_append _ _
  -- no-duplication facts
  have hnd' : (l₂ ++ l₁).Nodup := by
    rw [List.nodup_append] at hnd ⊢
    obtain ⟨h1, h2, hdis⟩ := hnd
    rw [List.nodup_cons] at h2
    exact ⟨h2.2, h1, fun a ha hal => hdis hal (List.mem_cons_of_mem v ha)⟩
  have hvnotl₁ : v ∉ l₁ := by
    rw [List.nodup_append] at hnd
    exact fun hv => hnd.2.2 hv (List.mem_cons_self v l₂)
  have hvnotl₂ : v ∉ l₂ := by
    rw [List.nodup_append, List.nodup_cons] at hnd
    exact hnd.2.1.1
  -- membership characterisation of the contracted list
  have hmem : ∀ x, x ∈ l₂ ++ l₁ ↔ (x ∈ l₁ ++ v :: l₂ ∧ x ≠ v) := by
    intro x
    simp only [List.mem_append, List.mem_cons]
    constructor
    · rintro (h | h)
      · exact ⟨Or.inr (Or.inr h), fun he => hvnotl₂ (he ▸ h)⟩
      · exact ⟨Or.inl h, fun he => hvnotl₁ (he ▸ h)⟩
    · rintro ⟨h | h | h, hne⟩
      · exact Or.inr h
      · exact absurd h hne
      · exact Or.inl h
  -- the position of v
  have hv? : (l₁ ++ v :: l₂)[l₁.length]? = some v := by
    rw [List.getElem?_append_right (Nat.le_refl _)]
    simp
  -- the position of k
  have hkl : k ∈ l₁ ++ v :: l₂ := by
    by_contra hkn
    rw [cycleTarget_not_mem hkn] at hk
    exact Option.noConfusion hk
  obtain ⟨ik, hik, hkik⟩ := List.getElem_of_mem hkl
  have hk? : (l₁ ++ v :: l₂)[ik]? = some k := by
    rw [List.getElem?_eq_getElem hik, hkik]
  -- k's successor is v
  have hich : (ik + 1) % (l₁ ++ v :: l₂).length = l₁.length := by
    rw [cycleTarget_of_getElem? _ hnd hk?] at hk
    exact nodup_getElem?_inj _ hnd hk hv?
  have hcases : ik + 1 = l₁.length ∨
      (l₁.length = 0 ∧ ik + 1 = (l₁ ++ v :: l₂).length) := by
    rcases Nat.lt_or_ge (ik + 1) (l₁ ++ v :: l₂).length with h1 | h1
    · left; rwa [Nat.mod_eq_of_lt h1] at hich
    · right
      have he : ik + 1 = (l₁ ++ v :: l₂).length := by omega
      rw [he, Nat.mod_self] at hich
      exact ⟨hich.symm, he⟩
  -- k is not the victim
  have hkne : k ≠ v := by
    intro he
    have : ik = l₁.length := nodup_getElem?_inj _ hnd (he ▸ hk?) hv?
    omega
  have hkl' : k ∈ l₂ ++ l₁ := (hmem k).mpr ⟨hkl, hkne⟩
  -- v's successor is not k (no 2-cycle once at least 3 players remain)
  have hctv : cycleTarget (l₁ ++ v :: l₂) v =
      (l₁ ++ v :: l₂)[(l₁.length + 1) % (l₁ ++ v :: l₂).length]? :=
    cycleTarget_of_getElem? _ hnd hv?
  have hvnek : cycleTarget (l₁ ++ v :: l₂) v ≠ some k := by
    rw [hctv]
    intro he
    have h2 : (l₁.length + 1) % (l₁ ++ v :: l₂).length = ik :=
      nodup_getElem?_inj _ hnd he hk?
    rcases Nat.lt_or_ge (l₁.length + 1) (l₁ ++ v :: l₂).length with hlt | hge
    · rw [Nat.mod_eq_of_lt hlt] at h2
      omega
    · have hmn : l₁.length + 1 = (l₁ ++ v :: l₂).length := by omega
      rw [hmn, Nat.mod_self] at h2
      omega
  refine ⟨hnd', hkl', hvnek, hmem, ?_⟩
  -- pointwise agreement on the contracted list
  intro x hx
  obtain ⟨i, hi, hxi⟩ := List.getElem_of_mem hx
  have hx? : (l₂ ++ l₁)[i]? = some x := by
    rw [List.getElem?_eq_getElem hi, hxi]
  have hi2 : i < l₂.length + l₁.length := by omega
  have hLHS : cycleTarget (l₂ ++ l₁) x = (l₂ ++ l₁)[(i+1) % (l₂ ++ l₁).length]? :=
    cycleTarget_of_getElem? _ hnd' hx?
  by_cases hc1 : i < l₂.length
  · -- x lies in l₂, at position l₁.length + 1 + i of the original list
    have hx2 : (l₁ ++ v :: l₂)[l₁.length + 1 + i]? = some x := by
      rw [List.getElem?_append_right (by omega)]
      have : l₁.length + 1 + i - l₁.length = i + 1 := by omega
      rw [this, List.getElem?_cons_succ]
      rw [List.getElem?_append_left hc1] at hx?
      exact hx?
    by_cases hc2 : i + 1 < l₂.length
    · -- interior of l₂
      have hxk : x ≠ k := by
        intro he
        have : l₁.length + 1 + i = ik := nodup_getElem?_inj _ hnd (he ▸ hx2) hk?
        omega
      rw [hLHS, if_neg hxk, cycleTarget_of_getElem? _ hnd hx2]
      have e1 : (i+1) % (l₂ ++ l₁).length = i + 1 := by
        rw [hlen2]; exact Nat.mod_eq_of_lt (by omega)
      have e2 : (l₁.length + 1 + i + 1) % (l₁ ++ v :: l₂).length
          = l₁.length + 1 + (i + 1) := by
        rw [hm1]; rw [Nat.mod_eq_of_lt (by omega)]; omega
      rw [e1, e2]
      rw [List.getElem?_append_left hc2]
      rw [List.getElem?_append_right (by omega)]
      have : l₁.length + 1 + (i + 1) - l₁.length = (i + 1) + 1 := by omega
      rw [this, List.getElem?_cons_succ]
    · -- i is the last position of l₂
      have hlast : i + 1 = l₂.length := by omega
      by_cases hm0 : l₁.length = 0
      · -- v was the head of the original list: x is the predecessor k
        have hik2 : ik = l₁.length + 1 + i := by omega
        have hxk : x = k := by
          have := hik2 ▸ hk?
          rw [hx2] at this
          exact Option.some.inj this
        rw [hLHS, if_pos hxk, hctv]
        have e1 : (i+1) % (l₂ ++ l₁).length = 0 := by
          have h01 : (l₂ ++ l₁).length = i + 1 := by omega
          rw [← h01, Nat.mod_self]
        have e2 : (l₁.length + 1) % (l₁ ++ v :: l₂).length = l₁.length + 1 := by
          rw [hm1]; exact Nat.mod_eq_of_lt (by omega)
        rw [e1, e2]
        have h0p : 0 < l₂.length := by omega
        rw [List.getElem?_append_left h0p]
        rw [List.getElem?_append_right (by omega)]
        have : l₁.length + 1 - l₁.length = 0 + 1 := by omega
        rw [this, List.getElem?_cons_succ]
      · -- wrap-around inside the contracted list: successor is the head
        have hxk : x ≠ k := by
          intro he
          have : l₁.length + 1 + i = ik := nodup_getElem?_inj _ hnd (he ▸ hx2) hk?
          omega
        rw [hLHS, if_neg hxk, cycleTarget_of_getElem? _ hnd hx2]
        have e1 : (i+1) % (l₂ ++ l₁).length = l₂.length := by
          rw [hlen2, hlast]; exact Nat.mod_eq_of_lt (by omega)
        have e2 : (l₁.length + 1 + i + 1) % (l₁ ++ v :: l₂).length = 0 := by
          have : l₁.length + 1 + i + 1 = (l₁ ++ v :: l₂).length := by omega
          rw [this, Nat.mod_self]
        rw [e1, e2]
        rw [List.getElem?_append_right (Nat.le_refl _)]
        have : l₂.length - l₂.length = 0 := by omega
        rw [this]
        rw [List.getElem?_append_left (by omega)]
  · -- x lies in l₁, at position i - l₂.length of the original list
    have hil : i - l₂.length < l₁.length := by omega
    have hx2 : (l₁ ++ v :: l₂)[i - l₂.length]? = some x := by
      rw [List.getElem?_append_left hil]
      rw [List.getElem?_append_right (by omega)] at hx?
      exact hx?
    by_cases hc3 : i + 1 < l₂.length + l₁.length
    · -- interior of l₁
      have hxk : x ≠ k := by
        intro he
        have : i - l₂.length = ik := nodup_getElem?_inj _ hnd (he ▸ hx2) hk?
        omega
      rw [hLHS, if_neg hxk, cycleTarget_of_getElem? _ hnd hx2]
      have e1 : (i+1) % (l₂ ++ l₁).length = i + 1 := by
        rw [hlen2]; exact Nat.mod_eq_of_lt (by omega)
      have e2 : (i - l₂.length + 1) % (l₁ ++ v :: l₂).length
          = i - l₂.length + 1 := by
        rw [hm1]; exact Nat.mod_eq_of_lt (by omega)
      rw [e1, e2]
      rw [List.getElem?_append_left (show i - l₂.length + 1 < l₁.length by omega)]
      rw [List.getElem?_append_right (by omega)]
      have : i + 1 - l₂.length = i - l₂.length + 1 := by omega
      rw [this]
    · -- x is the last entry of l₁: its index is l₁.length - 1, i.e. x = k
      have hm0 : 0 < l₁.length := by omega
      have hik2 : ik = i - l₂.length := by omega
      have hxk : x = k := by
        have := hik2 ▸ hk?
        rw [hx2] at this
        exact Option.some.inj this
      rw [hLHS, if_pos hxk, hctv]
      have e1 : (i+1) % (l₂ ++ l₁).length = 0 := by
        rw [hlen2]
        have : i + 1 = l₂.length + l₁.length := by omega
        rw [this, Nat.mod_self]
      rw [e1]
      by_cases hp0 : l₂.length = 0
      · have e2 : (l₁.length + 1) % (l₁ ++ v :: l₂).length = 0 := by
          have : l₁.length + 1 = (l₁ ++ v :: l₂).length := by omega
          rw [this, Nat.mod_self]
        rw [e2]
        rw [List.getElem?_append_right (by omega)]
        rw [List.getElem?_append_left (by omega)]
        have : 0 - l₂.length = 0 := by omega
        rw [this]
      · have e2 : (l₁.length + 1) % (l₁ ++ v :: l₂).length = l₁.length + 1 := by
          rw [hm1]; exact Nat.mod_eq_of_lt (by omega)
        rw [e2]
        rw [List.getElem?_append_left (by omega)]
        rw [List.getElem?_append_right (by omega)]
        have : l₁.length + 1 - l₁.length = 0 + 1 := by omega
        rw [this, List.getElem?_cons_succ]

/-! ### The persisted data model (tables `games`, `players`, `kill_history`)

Player and kill identifiers (uuids in the source) are modelled as `Nat`;
game codes, names, tokens, hashes and tasks as `String`.  The unused
`assassin_id` column is omitted.  Timestamps are `Nat`. -/

inductive PStatus : Type
  | notJoined
  | alive
  | eliminated
deriving DecidableEq

inductive GStatus : Type
  | lobby
  | active
  | finished
deriving DecidableEq

structure Player : Type where
  id : Nat
  game_id : String
  name : String
  session_token : Option String
  pin_code : Option String
  target_id : Option Nat
  task : Option String
  status : PStatus
  joined_at : Option Nat
deriving DecidableEq

structure Game : Type where
  id : String
  creator_session : String
  status : GStatus
  task_pool : List String
deriving DecidableEq

structure KillRec : Type where
  id : Nat
  game_id : String
  killer_id : Nat
  victim_id : Nat
  task : Option String
  timestamp : Nat
deriving DecidableEq

/-- The persistent store: the three SQLite relations. -/
structure DB : Type where
  games : List Game
  players : List Player
  kills : List KillRec
deriving DecidableEq

/-- Recipient of an emitted socket event: the requesting socket, a whole
game room, the socket bound to a player id, or the socket bound to a
session token. -/
inductive Dest : Type
  | requester
  | room (gameCode : String)
  | player (pid : Nat)
  | session (tok : String)
deriving DecidableEq

/-- The socket events the handlers emit. -/
inductive Msg : Type
  | errorMsg (text : String)
  | playerListUpdate
  | gameStateMsg (s : String)
  | gameStarted
  | yourAssignment (target : Option (Nat × String)) (task : Option String)
  | killChallenge (killer_id : Nat) (killer_name : String) (task : Option String)
  | killDenied
  | newTarget (target : Option (Nat × String)) (task : Option String)
  | playerEliminated (name : String) (id : Nat)
  | youEliminated
  | gameOver (winner_id : Nat) (winner_name : String)
  | navigateVictory (gameCode : String)
  | identityConfirmed (tok : String) (name : String) (pid : Nat)
  | identityReclaimed (tok : String) (name : String) (pid : Nat)
  | identityCanceled (name : String)
  | sessionInvalidated
deriving DecidableEq

/-- An emission: destination and message. -/
abbrev Emit : Type := Dest × Msg

/-- Server environment: socket-presence maps (`playerToSocket`,
`sessionToSocket`), PIN hash function, fresh identifiers, current time and
random streams, all explicit parameters. -/
structure Ctx : Type where
  online : Nat → Bool
  sessionOnline : String → Bool
  hashPin : String → String
  newKillId : Nat
  now : Nat
  newToken : String
  randCycle : Nat → Nat
  randTasks : Nat → Nat
  randPick : Nat → Nat
  randFinal : Nat → Nat

/-! ### Prepared queries (`db.prepare(...)` helpers) -/

/-- Lexicographic (byte/codepoint) ordering on character lists: the sort
key of `ORDER BY name` and of `localeCompare` on the ASCII names used
here. -/
def lexLe : List Char → List Char → Prop
  | [], _ => True
  | _ :: _, [] => False
  | c :: cs, d :: ds => c.toNat < d.toNat ∨ (c = d ∧ lexLe cs ds)

def lexLeDec : ∀ a b, Decidable (lexLe a b)
  | [], _ => isTrue trivial
  | _ :: _, [] => isFalse fun h => h
  | c :: cs, d :: ds =>
    have : Decidable (lexLe cs ds) := lexLeDec cs ds
    inferInstanceAs (Decidable (_ ∨ _))

instance : ∀ a b, Decidable (lexLe a b) := lexLeDec

theorem lexLe_refl : ∀ a, lexLe a a
  | [] => trivial
  | _ :: cs => Or.inr ⟨rfl, lexLe_refl cs⟩

theorem lexLe_trans : ∀ {a b c}, lexLe a b → lexLe b c → lexLe a c
  | [], _, _, _, _ => trivial
  | _ :: _, [], _, h, _ => absurd h (fun h => h)
  | _ :: _, _ :: _, [], _, h2 => absurd h2 (fun h => h)
  | x :: xs, y :: ys, z :: zs, h1, h2 => by
    rcases h1 with h1 | ⟨rfl, h1⟩
    · rcases h2 with h2 | ⟨rfl, h2⟩
      · exact Or.inl (Nat.lt_trans h1 h2)
      · exact Or.inl h1
    · rcases h2 with h2 | ⟨rfl, h2⟩
      · exact Or.inl h2
      · exact Or.inr ⟨rfl, lexLe_trans h1 h2⟩

theorem lexLe_total : ∀ a b, lexLe a b ∨ lexLe b a
  | [], _ => Or.inl trivial
  | _ :: _, [] => Or.inr trivial
  | x :: xs, y :: ys => by
    rcases Nat.lt_trichotomy x.toNat y.toNat with h | h | h
    · exact Or.inl (Or.inl h)
    · have hxy : x = y := Char.ext (UInt32.toNat.inj h)
      rcases lexLe_total xs ys with h2 | h2
      · exact Or.inl (Or.inr ⟨hxy, h2⟩)
      · exact Or.inr (Or.inr ⟨hxy.symm, h2⟩)
    · exact Or.inr (Or.inl h)

theorem lexLe_antisymm : ∀ {a b}, lexLe a b → lexLe b a → a = b
  | [], [], _, _ => rfl
  | [], _ :: _, _, h2 => absurd h2 (fun h => h)
  | _ :: _, [], h1, _ => absurd h1 (fun h => h)
  | x :: xs, y :: ys, h1, h2 => by
    rcases h1 with h1 | ⟨rfl, h1⟩
    · rcases h2 with h2 | ⟨he, h2⟩
      · exact absurd (Nat.lt_trans h1 h2) (Nat.lt_irrefl _)
      · rw [he] at h1
        exact absurd h1 (Nat.lt_irrefl _)
    · rcases h2 with h2 | ⟨he, h2⟩
      · exact absurd h2 (Nat.lt_irrefl _)
      · rw [lexLe_antisymm h1 h2]

/-- Ascending-by-name order used by `ORDER BY name`. -/
def nameLe (p q : Player) : Prop := lexLe p.name.data q.name.data

instance : DecidableRel nameLe := fun p q =>
  inferInstanceAs (Decidable (lexLe p.name.data q.name.data))

/-- `SELECT * FROM games WHERE id = ?`. -/
def getGameById (db : DB) (g : String) : Option Game :=
  db.games.find? (fun x => x.id == g)

/-- `SELECT * FROM players WHERE game_id = ? AND status = 'alive' ORDER BY name`. -/
def listAlivePlayers (db : DB) (g : String) : List Player :=
  List.insertionSort nameLe
    (db.players.filter (fun p => p.game_id == g && p.status == PStatus.alive))

/-- `SELECT * FROM players WHERE session_token = ?`. -/
def getPlayerBySession (db : DB) (tok : String) : Option Player :=
  db.players.find? (fun p => p.session_token == some tok)

/-- `SELECT * FROM players WHERE id = ?`. -/
def getPlayerById (db : DB) (pid : Nat) : Option Player :=
  db.players.find? (fun p => p.id == pid)

/-- `UPDATE players SET ... WHERE id = ?`: apply `f` to every row whose id
matches (at most one row, ids being primary keys). -/
def updatePlayers (db : DB) (pid : Nat) (f : Player → Player) : DB :=
  { db with players := db.players.map (fun p => if p.id = pid then f p else p) }

/-- `UPDATE players SET status = ? WHERE id = ?`. -/
def setPlayerStatus (db : DB) (s : PStatus) (pid : Nat) : DB :=
  updatePlayers db pid (fun p => { p with status := s })

/-- `UPDATE players SET target_id = ? WHERE id = ?`. -/
def setPlayerTargetOnly (db : DB) (t : Option Nat) (pid : Nat) : DB :=
  updatePlayers db pid (fun p => { p with target_id := t })

/-- `UPDATE players SET task = ? WHERE id = ?`. -/
def setPlayerTaskOnly (db : DB) (t : Option String) (pid : Nat) : DB :=
  updatePlayers db pid (fun p => { p with task := t })

/-- `UPDATE players SET target_id = ?, task = ? WHERE id = ?`. -/
def updatePlayerTargetAndTask (db : DB) (t : Option Nat) (tk : Option String)
    (pid : Nat) : DB :=
  updatePlayers db pid (fun p => { p with target_id := t, task := tk })

/-- `UPDATE games SET status = ? WHERE id = ?`. -/
def setGameStatus (db : DB) (s : GStatus) (g : String) : DB :=
  { db with games := db.games.map (fun x => if x.id = g then { x with status := s } else x) }

/-- JavaScript `.trim()`: drop leading and trailing whitespace. -/
def strTrim (s : String) : String :=
  String.mk
    (((s.data.dropWhile Char.isWhitespace).reverse.dropWhile
        Char.isWhitespace).reverse)

/-- ASCII lower-casing of one character, as `toLowerCase` acts on the
characters used here. -/
def charToLower (c : Char) : Char :=
  if decide ('A' <= c) && decide (c <= 'Z') then Char.ofNat (c.toNat + 32) else c

/-- `String(answer).toLowerCase()` (ASCII model). -/
def strToLower (s : String) : String := String.mk (s.data.map charToLower)

/-- JavaScript `value || null` on an optional string: the empty string is
falsy and collapses to `null`. -/
def orNull (t : Option String) : Option String :=
  match t with
  | some s => if s = "" then none else some s
  | none => none

/-! ### Input validation helpers (from the source) -/

/-- A character matching `[A-Z0-9]`. -/
def isUpperOrDigit (c : Char) : Bool :=
  (decide ('A' ≤ c) && decide (c ≤ 'Z')) ||
  (decide ('0' ≤ c) && decide (c ≤ '9'))

/-- `validateGameCode`: trimmed code matches `^[A-Z0-9]{4,10}$`. -/
def validateGameCode (code : String) : Bool :=
  decide (4 ≤ (strTrim code).length) && decide ((strTrim code).length ≤ 10) &&
    (strTrim code).data.all isUpperOrDigit

/-- `validatePlayerName`: trimmed length between 1 and 50. -/
def validatePlayerName (name : String) : Bool :=
  decide (1 ≤ (strTrim name).length) && decide ((strTrim name).length ≤ 50)

/-- `validatePin`: trimmed PIN matches `^\d{4}$`. -/
def validatePin (pin : String) : Bool :=
  decide ((strTrim pin).length = 4) && (strTrim pin).data.all Char.isDigit

/-- Default fallback tasks (`DEFAULT_TASKS`); used when the stored pool is
empty.  (The final source string quotes the word banana.) -/
def DEFAULT_TASKS : List String :=
  ["Make them say their favorite movie.",
   "Get them to high-five you.",
   "Borrow a pen from them.",
   "Make them take a selfie with you.",
   "Get them to say the word banana."]

/-- The status strings stored in the `games` table. -/
def gstatusStr : GStatus → String
  | GStatus.lobby => "lobby"
  | GStatus.active => "active"
  | GStatus.finished => "finished"

/-! ### The resolve-kill handler -/

/-- The transaction of the confirmed branch of the resolve-kill handler:
mark the victim (`target`) eliminated, re-link the killer to the victim's
previous target (or to null in a mutual 2-cycle), transfer the task, and
append the kill record. -/
def elimState (ctx : Ctx) (db : DB) (target killer : Player) : DB :=
  let targetNextId := target.target_id
  let newTargetForKiller := if targetNextId = some killer.id then none else targetNextId
  let db1 := setPlayerStatus db PStatus.eliminated target.id
  let db2 := setPlayerTargetOnly db1 newTargetForKiller killer.id
  let db3 := setPlayerTaskOnly db2 (orNull target.task) killer.id
  { db3 with kills := db3.kills ++
      [{ id := ctx.newKillId, game_id := target.game_id, killer_id := killer.id,
         victim_id := target.id, task := orNull target.task, timestamp := ctx.now }] }

/-- The confirmed branch of the resolve-kill handler: run the elimination
transaction, emit the notifications, and finish the game when exactly one
alive player remains. -/
def resolveKillConfirmed (ctx : Ctx) (db : DB) (target killer : Player) :
    DB × List Emit :=
  let db4 : DB := elimState ctx db target killer
  let ems1 : List Emit :=
    [(Dest.room target.game_id, Msg.playerListUpdate),
     (Dest.room target.game_id, Msg.playerEliminated target.name target.id)] ++
    (if ctx.online target.id then [(Dest.player target.id, Msg.youEliminated)] else []) ++
    (if ctx.online killer.id then
       match getPlayerById db4 killer.id with
       | some updatedKiller =>
           [(Dest.player killer.id,
             Msg.newTarget
               ((updatedKiller.target_id.bind (getPlayerById db4)).map
                 (fun t => (t.id, t.name)))
               (orNull updatedKiller.task))]
       | none => []
     else [])
  match listAlivePlayers db4 target.game_id with
  | [winner] =>
      (setGameStatus db4 GStatus.finished target.game_id,
       ems1 ++ [(Dest.room target.game_id, Msg.gameStateMsg "finished"),
                (Dest.room target.game_id, Msg.gameOver winner.id winner.name),
                (Dest.room target.game_id, Msg.navigateVictory target.game_id)])
  | _ => (db4, ems1)

/-- The resolve-kill handler (`socket.on('resolve-kill', ...)`).  The player
bound to the session is the victim being challenged; `killer_id` names the
claiming killer; any answer other than `confirm` denies the kill. -/
def resolveKill (ctx : Ctx) (db : DB) (sessionToken : Option String)
    (killer_id : Option Nat) (answer : String) : DB × List Emit :=
  match sessionToken with
  | none => (db, [(Dest.requester, Msg.errorMsg "Missing session token.")])
  | some tok =>
    if strTrim tok = "" then
      (db, [(Dest.requester, Msg.errorMsg "Missing session token.")])
    else
      match getPlayerBySession db tok with
      | none => (db, [(Dest.requester, Msg.errorMsg "Invalid session.")])
      | some target =>
        if target.status ≠ PStatus.alive then
          (db, [(Dest.requester, Msg.errorMsg "Only alive targets can resolve a kill.")])
        else
          match killer_id with
          | none => (db, [(Dest.requester, Msg.errorMsg "Killer not found.")])
          | some kid =>
            match getPlayerById db kid with
            | none => (db, [(Dest.requester, Msg.errorMsg "Killer not found.")])
            | some killer =>
              if killer.status ≠ PStatus.alive then
                (db, [(Dest.requester, Msg.errorMsg "Killer is no longer alive.")])
              else if killer.target_id ≠ some target.id then
                (db, [(Dest.requester, Msg.errorMsg "You are not their current target.")])
              else if strToLower answer ≠ "confirm" then
                (db, if ctx.online killer.id then
                  [(Dest.player killer.id, Msg.killDenied)] else [])
              else
                resolveKillConfirmed ctx db target killer

/-! ### The claim-kill handler -/

/-- The claim-kill handler (`socket.on('claim-kill', ...)`): a chain of
checks, then a private kill-challenge to the target's socket.  It performs
no database write at all. -/
def claimKill (ctx : Ctx) (db : DB) (sessionToken : Option String)
    (gameCode : Option String) : DB × List Emit :=
  let gc := gameCode.getD ""
  if ¬ validateGameCode gc then
    (db, [(Dest.requester, Msg.errorMsg "Invalid game code.")])
  else
    match sessionToken with
    | none => (db, [(Dest.requester, Msg.errorMsg "Missing session token.")])
    | some tok =>
      if tok = "" then
        (db, [(Dest.requester, Msg.errorMsg "Missing session token.")])
      else
        match getGameById db gc with
        | none => (db, [(Dest.requester, Msg.errorMsg "Game not active.")])
        | some game =>
          if game.status ≠ GStatus.active then
            (db, [(Dest.requester, Msg.errorMsg "Game not active.")])
          else
            match getPlayerBySession db tok with
            | none => (db, [(Dest.requester, Msg.errorMsg "Invalid session.")])
            | some killer =>
              if killer.game_id ≠ gc then
                (db, [(Dest.requester, Msg.errorMsg "Session does not belong to this game.")])
              else if killer.status ≠ PStatus.alive then
                (db, [(Dest.requester, Msg.errorMsg "Eliminated players cannot claim kills.")])
              else
                match killer.target_id with
                | none => (db, [(Dest.requester, Msg.errorMsg "You have no target.")])
                | some tid =>
                  if killer.task = none ∨ killer.task = some "" then
                    (db, [(Dest.requester, Msg.errorMsg "No task assigned to you.")])
                  else
                    match getPlayerById db tid with
                    | none => (db, [(Dest.requester, Msg.errorMsg "Target not found.")])
                    | some target =>
                      if target.status ≠ PStatus.alive then
                        (db, [(Dest.requester, Msg.errorMsg "Target is already eliminated.")])
                      else if ¬ ctx.online target.id then
                        (db, [(Dest.requester, Msg.errorMsg "Target is offline. Try again later.")])
                      else
                        (db, [(Dest.player target.id,
                          Msg.killChallenge killer.id killer.name killer.task)])

/-! ### The start-game handler -/

/-- The `while (tasksToAssign.length < numPlayers)` filler loop: `count`
independent uniform picks from the pool. -/
def buildPicks (tasks : List String) (count : Nat) (randPick : Nat → Nat) :
    List String :=
  (List.range count).map (fun t => tasks.getD (randPick t % tasks.length) "")

/-- Task distribution of the start-game handler: enough tasks means a
shuffled prefix; otherwise all tasks once, random fillers, and a final
shuffle. -/
def buildTasksToAssign (tasks : List String) (numPlayers : Nat)
    (randTasks randPick randFinal : Nat → Nat) : List String :=
  if tasks.length ≥ numPlayers then
    (shuffleArray tasks randTasks).take numPlayers
  else
    shuffleArray
      (shuffleArray tasks randTasks ++
        buildPicks tasks (numPlayers - tasks.length) randPick)
      randFinal

/-- The transaction loop of the start-game handler: for each position `i`,
set the target of `shuffled[i]` to `shuffled[(i+1) % n]` and its task to
`tasksToAssign[i]`. -/
def runAssign (db : DB) (shuffled : List Nat) (tasks : List String) : DB :=
  (List.range shuffled.length).foldl
    (fun d i => updatePlayerTargetAndTask d
        (some (shuffled.getD ((i+1) % shuffled.length) 0))
        (some (tasks.getD i ""))
        (shuffled.getD i 0)) db

/-- The start-game handler (`socket.on('start-game', ...)`). -/
def startGame (ctx : Ctx) (db : DB) (gameCode : Option String)
    (creatorToken : Option String) : DB × List Emit :=
  let gc := gameCode.getD ""
  if ¬ validateGameCode gc then
    (db, [(Dest.requester, Msg.errorMsg "Invalid game code.")])
  else
    let ct := creatorToken.getD ""
    if ct = "" then
      (db, [(Dest.requester, Msg.errorMsg "Invalid creator token.")])
    else
      match getGameById db gc with
      | none => (db, [(Dest.requester, Msg.errorMsg "Game not found.")])
      | some game =>
        if game.creator_session ≠ ct then
          (db, [(Dest.requester, Msg.errorMsg "Only the creator can start the game.")])
        else if game.status = GStatus.active ∨ game.status = GStatus.finished then
          (db, [(Dest.room gc, Msg.gameStateMsg "active"),
                (Dest.room gc, Msg.gameStarted)])
        else
          let alive := listAlivePlayers db gc
          if alive.length < 2 then
            (db, [(Dest.requester, Msg.errorMsg "Need at least 2 players to start.")])
          else
            let tasks := if game.task_pool = [] then DEFAULT_TASKS else game.task_pool
            let ids := alive.map (fun p => p.id)
            let shuffled := shuffleArray ids ctx.randCycle
            let tasksToAssign := buildTasksToAssign tasks shuffled.length
              ctx.randTasks ctx.randPick ctx.randFinal
            let db2 := setGameStatus (runAssign db shuffled tasksToAssign) GStatus.active gc
            let updatedAlive := listAlivePlayers db2 gc
            (db2,
              [(Dest.room gc, Msg.gameStateMsg "started"),
               (Dest.room gc, Msg.gameStarted)] ++
              updatedAlive.foldr (fun p acc =>
                (if ctx.online p.id then
                  [(Dest.player p.id, Msg.yourAssignment
                    ((p.target_id.bind (getPlayerById db2)).map (fun t => (t.id, t.name)))
                    (orNull p.task))]
                 else []) ++ acc) [])

/-! ### The cancel-identity handler -/

/-- The cancel-identity handler (`socket.on('cancel-identity', ...)`):
reset the bound alive player to not-joined, clearing session token and join
time only. -/
def cancelIdentity (ctx : Ctx) (db : DB) (gameCode : Option String)
    (sessionToken : Option String) : DB × List Emit :=
  let gc := gameCode.getD ""
  if ¬ validateGameCode gc then
    (db, [(Dest.requester, Msg.errorMsg "Invalid game code.")])
  else
    match sessionToken with
    | none => (db, [(Dest.requester, Msg.errorMsg "Invalid session token.")])
    | some tok =>
      if tok = "" then
        (db, [(Dest.requester, Msg.errorMsg "Invalid session token.")])
      else
        match getGameById db gc with
        | none => (db, [(Dest.requester, Msg.errorMsg "Game not found.")])
        | some game =>
          match db.players.find? (fun p => p.game_id == gc &&
              p.session_token == some tok && p.status == PStatus.alive) with
          | none => (db, [(Dest.requester, Msg.errorMsg "Invalid session or player not found")])
          | some player =>
            (updatePlayers db player.id (fun p =>
              { p with status := PStatus.notJoined, session_token := none,
                       joined_at := none }),
             [(Dest.requester, Msg.gameStateMsg (gstatusStr game.status)),
              (Dest.requester, Msg.identityCanceled player.name),
              (Dest.room gc, Msg.playerListUpdate)])

/-! ### The reclaim-identity handler -/

/-- The row filter of the reclaim lookup: same game, requested name, and a
previously stored PIN hash. -/
def predReclaim (gameCode playerName : String) (p : Player) : Bool :=
  p.game_id == gameCode && p.name == playerName && p.pin_code.isSome

/-- The first half of the reclaim handler: if the requesting socket already
holds a different identity of the same game, release its session and tell
the requester. -/
def reclaimCancelStep (db : DB) (sockSession : Option String)
    (gameCode playerName : String) : DB × List Emit :=
  match sockSession with
  | none => (db, [])
  | some stok =>
    match getPlayerBySession db stok with
    | some currentPlayer =>
      if currentPlayer.game_id = gameCode ∧ currentPlayer.name ≠ playerName then
        (updatePlayers db currentPlayer.id
           (fun p => { p with session_token := none }),
         [(Dest.requester, Msg.identityCanceled currentPlayer.name)])
      else (db, [])
    | none => (db, [])

/-- The reclaim-identity handler (`socket.on('reclaim-identity', ...)`).
`sockSession` is the session token currently held by the requesting socket
(`socket.data.sessionToken`). -/
def reclaimIdentity (ctx : Ctx) (db : DB) (sockSession : Option String)
    (gameCode playerName pin : String) : DB × List Emit :=
  if ¬ validateGameCode gameCode then
    (db, [(Dest.requester, Msg.errorMsg "Invalid game code.")])
  else if ¬ validatePlayerName playerName then
    (db, [(Dest.requester, Msg.errorMsg "Invalid player name.")])
  else if ¬ validatePin pin then
    (db, [(Dest.requester, Msg.errorMsg "Reclaim failed.")])
  else
    match getGameById db gameCode with
    | none => (db, [(Dest.requester, Msg.errorMsg "Game not found.")])
    | some game =>
      -- release a different identity held by the same socket
      let cancelStep := reclaimCancelStep db sockSession gameCode playerName
      let db1 := cancelStep.1
      let ems0 := cancelStep.2
      match db1.players.find? (predReclaim gameCode playerName) with
      | none => (db1, ems0 ++ [(Dest.requester, Msg.errorMsg "Reclaim failed.")])
      | some player =>
        if player.pin_code ≠ some (ctx.hashPin pin) then
          (db1, ems0 ++ [(Dest.requester, Msg.errorMsg "Reclaim failed.")])
        else
          let invalidateEms : List Emit :=
            match player.session_token with
            | some oldTok =>
              if ctx.sessionOnline oldTok ∧ sockSession ≠ some oldTok then
                [(Dest.session oldTok, Msg.sessionInvalidated)]
              else []
            | none => []
          let db2 :=
            if game.status = GStatus.lobby then
              updatePlayers db1 player.id (fun p =>
                { p with session_token := some ctx.newToken, status := PStatus.alive })
            else
              updatePlayers db1 player.id (fun p =>
                { p with session_token := some ctx.newToken })
          (db2, ems0 ++ invalidateEms ++
            [(Dest.requester, Msg.identityReclaimed ctx.newToken player.name player.id),
             (Dest.requester, Msg.gameStateMsg (gstatusStr game.status))] ++
            (if game.status = GStatus.active ∧ player.status = PStatus.alive then
              [(Dest.requester, Msg.yourAssignment
                ((player.target_id.bind (getPlayerById db1)).map (fun t => (t.id, t.name)))
                (orNull player.task))]
             else []) ++
            [(Dest.room gameCode, Msg.playerListUpdate)])

/-! ### The game-summary kill counts -/

/-- Order of the kill-count rows: `ORDER BY count DESC, name ASC`. -/
def countOrd (a b : String × Nat) : Prop :=
  b.2 < a.2 ∨ (a.2 = b.2 ∧ lexLe a.1.data b.1.data)

instance : DecidableRel countOrd := fun a b =>
  inferInstanceAs (Decidable (b.2 < a.2 ∨ (a.2 = b.2 ∧ lexLe a.1.data b.1.data)))

/-- The kill-count rows of `/api/game-summary`: one row per player of the
game, counting the kill records naming that player as killer, sorted by
count descending then name ascending. -/
def killCountRows (db : DB) (g : String) : List (String × Nat) :=
  List.insertionSort countOrd
    ((db.players.filter (fun p => p.game_id == g)).map
      (fun p => (p.name, (db.kills.filter (fun h => h.killer_id == p.id)).length)))

/-! ### Plumbing lemmas on the store -/

/-- The abstract target relation held in the `players` table. -/
def targetRel (db : DB) (x : Nat) : Option Nat :=
  (getPlayerById db x).bind Player.target_id

/-- The identifiers of the alive players of game `g` (unordered). -/
def aliveIdsOf (db : DB) (g : String) : List Nat :=
  (db.players.filter (fun p => p.game_id == g && p.status == PStatus.alive)).map
    Player.id

/-- The single-cycle invariant of an active game: some duplicate-free
arrangement of exactly the alive players of `g` whose cyclic-successor
assignment coincides with the stored target relation. -/
def CycleInv (db : DB) (g : String) : Prop :=
  ∃ l : List Nat, l.Nodup ∧ l ~ aliveIdsOf db g ∧
    ∀ x ∈ l, targetRel db x = cycleTarget l x

theorem find?_map_comm {α : Type} (ps : List α) (g : α → α) (q : α → Bool)
    (hq : ∀ p, q (g p) = q p) :
    (ps.map g).find? q = (ps.find? q).map g := by
  induction ps with
  | nil => rfl
  | cons a ps ih =>
    rw [List.map_cons, List.find?_cons, List.find?_cons, hq]
    cases hqa : q a with
    | true => rfl
    | false => exact ih

theorem getPlayerById_updatePlayers (db : DB) (pid : Nat) (f : Player → Player)
    (hf : ∀ p, (f p).id = p.id) (x : Nat) :
    getPlayerById (updatePlayers db pid f) x =
      (getPlayerById db x).map (fun p => if p.id = pid then f p else p) := by
  unfold getPlayerById updatePlayers
  apply find?_map_comm
  intro p
  by_cases h : p.id = pid <;> simp [h, hf]

theorem find?_id_of_mem (ps : List Player)
    (hnd : (ps.map Player.id).Nodup) {p : Player} (hp : p ∈ ps) :
    ps.find? (fun q => q.id == p.id) = some p := by
  induction ps with
  | nil => cases hp
  | cons a ps ih =>
    rw [List.map_cons, List.nodup_cons] at hnd
    rw [List.find?_cons]
    by_cases ha : a.id = p.id
    · rcases List.mem_cons.mp hp with rfl | hmem
      · simp
      · exact absurd (ha ▸ List.mem_map_of_mem Player.id hmem) hnd.1
    · have hb : (a.id == p.id) = false := by simpa using ha
      rw [hb]
      rcases List.mem_cons.mp hp with rfl | hmem
      · exact absurd rfl ha
      · exact ih hnd.2 hmem

theorem getPlayerById_of_mem (db : DB)
    (hnd : (db.players.map Player.id).Nodup) {p : Player}
    (hp : p ∈ db.players) : getPlayerById db p.id = some p :=
  find?_id_of_mem db.players hnd hp

theorem mem_aliveIdsOf (db : DB) (g : String) (x : Nat) :
    x ∈ aliveIdsOf db g ↔
      ∃ p ∈ db.players, p.id = x ∧ p.game_id = g ∧ p.status = PStatus.alive := by
  unfold aliveIdsOf
  simp only [List.mem_map, List.mem_filter, Bool.and_eq_true, beq_iff_eq]
  constructor
  · rintro ⟨p, ⟨hp, hg, hs⟩, hid⟩
    exact ⟨p, hp, hid, hg, hs⟩
  · rintro ⟨p, hp, hid, hg, hs⟩
    exact ⟨p, ⟨hp, hg, hs⟩, hid⟩

theorem aliveIdsOf_nodup (db : DB)
    (hnd : (db.players.map Player.id).Nodup) (g : String) :
    (aliveIdsOf db g).Nodup := by
  unfold aliveIdsOf
  exact List.Nodup.sublist (List.Sublist.map Player.id (List.filter_sublist _)) hnd

theorem length_listAlivePlayers (db : DB) (g : String) :
    (listAlivePlayers db g).length = (aliveIdsOf db g).length := by
  unfold listAlivePlayers aliveIdsOf
  rw [List.length_insertionSort, List.length_map]

/-! ### Characterisation of the elimination transaction -/

/-- The row-level effect of the elimination transaction. -/
def elimUpdate (target killer : Player) (p : Player) : Player :=
  let p1 := if p.id = target.id then { p with status := PStatus.eliminated } else p
  let p2 := if p1.id = killer.id then
      { p1 with target_id := if target.target_id = some killer.id then none
                             else target.target_id } else p1
  if p2.id = killer.id then { p2 with task := orNull target.task } else p2

theorem elimUpdate_id (target killer p : Player) :
    (elimUpdate target killer p).id = p.id := by
  unfold elimUpdate
  dsimp only
  split_ifs <;> rfl

theorem elimUpdate_game (target killer p : Player) :
    (elimUpdate target killer p).game_id = p.game_id := by
  unfold elimUpdate
  dsimp only
  split_ifs <;> rfl

theorem elimUpdate_status (target killer p : Player) :
    (elimUpdate target killer p).status =
      if p.id = target.id then PStatus.eliminated else p.status := by
  unfold elimUpdate
  dsimp only
  split_ifs <;> rfl

theorem elimUpdate_target_id (target killer p : Player) :
    (elimUpdate target killer p).target_id =
      if p.id = killer.id then
        (if target.target_id = some killer.id then none else target.target_id)
      else p.target_id := by
  unfold elimUpdate
  dsimp only
  by_cases h1 : p.id = target.id
  · by_cases h2 : p.id = killer.id
    · have h3 : target.id = killer.id := by omega
      simp [h1, h2, h3]
    · have h3 : ¬ target.id = killer.id := by omega
      simp [h1, h2, h3]
  · by_cases h2 : p.id = killer.id
    · have h4 : ¬ killer.id = target.id := by omega
      simp [h1, h2, h4]
    · simp [h1, h2]

theorem elimState_players (ctx : Ctx) (db : DB) (target killer : Player) :
    (elimState ctx db target killer).players =
      db.players.map (elimUpdate target killer) := by
  show ((db.players.map _).map _).map _ = _
  rw [List.map_map, List.map_map]
  rfl

theorem elimState_ids (ctx : Ctx) (db : DB) (target killer : Player) :
    (elimState ctx db target killer).players.map Player.id =
      db.players.map Player.id := by
  rw [elimState_players, List.map_map]
  exact List.map_congr_left (fun p _ => elimUpdate_id target killer p)

theorem getPlayerById_elimState (ctx : Ctx) (db : DB) (target killer : Player)
    (x : Nat) :
    getPlayerById (elimState ctx db target killer) x =
      (getPlayerById db x).map (elimUpdate target killer) := by
  unfold getPlayerById
  rw [elimState_players]
  exact find?_map_comm _ _ _ (fun p => by simp [elimUpdate_id])

theorem aliveIdsOf_elimState (ctx : Ctx) (db : DB) (target killer : Player)
    (g : String) (x : Nat) :
    x ∈ aliveIdsOf (elimState ctx db target killer) g ↔
      (x ∈ aliveIdsOf db g ∧ x ≠ target.id) := by
  rw [mem_aliveIdsOf, mem_aliveIdsOf]
  constructor
  · rintro ⟨p', hp', hid, hg, hs⟩
    rw [elimState_players] at hp'
    obtain ⟨p, hp, rfl⟩ := List.mem_map.mp hp'
    rw [elimUpdate_id] at hid
    rw [elimUpdate_game] at hg
    rw [elimUpdate_status] at hs
    by_cases hpt : p.id = target.id
    · rw [if_pos hpt] at hs
      exact absurd hs (by simp)
    · rw [if_neg hpt] at hs
      exact ⟨⟨p, hp, hid, hg, hs⟩, by rw [← hid]; exact hpt⟩
  · rintro ⟨⟨p, hp, hid, hg, hs⟩, hxne⟩
    refine ⟨elimUpdate target killer p, ?_, ?_, ?_, ?_⟩
    · rw [elimState_players]
      exact List.mem_map_of_mem _ hp
    · rw [elimUpdate_id]; exact hid
    · rw [elimUpdate_game]; exact hg
    · rw [elimUpdate_status, if_neg (by rw [hid]; exact hxne)]
      exact hs

theorem targetRel_elimState (ctx : Ctx) (db : DB) (target killer : Player)
    (x : Nat) :
    targetRel (elimState ctx db target killer) x =
      (getPlayerById db x).bind (fun p =>
        if p.id = killer.id then
          (if target.target_id = some killer.id then none else target.target_id)
        else p.target_id) := by
  unfold targetRel
  rw [getPlayerById_elimState]
  cases getPlayerById db x with
  | none => rfl
  | some p =>
    rw [Option.some_bind]
    show (elimUpdate target killer p).target_id = _
    rw [elimUpdate_target_id]

theorem resolveKillConfirmed_fst_of_ne_one (ctx : Ctx) (db : DB)
    (target killer : Player)
    (h : (listAlivePlayers (elimState ctx db target killer) target.game_id).length ≠ 1) :
    (resolveKillConfirmed ctx db target killer).1 =
      elimState ctx db target killer := by
  unfold resolveKillConfirmed
  rcases hs : listAlivePlayers (elimState ctx db target killer) target.game_id with
    _ | ⟨a, _ | ⟨b, r⟩⟩
  · simp only [hs]
  · rw [hs] at h
    simp at h
  · simp only [hs]

/-- When every check passes and the answer is `confirm`, the resolve-kill
handler runs its confirmed branch. -/
theorem resolveKill_confirm_eq (ctx : Ctx) (db : DB) (tok : String)
    (victim killer : Player)
    (htok : ¬ strTrim tok = "")
    (hsess : getPlayerBySession db tok = some victim)
    (hvstat : victim.status = PStatus.alive)
    (hkill : getPlayerById db killer.id = some killer)
    (hkstat : killer.status = PStatus.alive)
    (htar : killer.target_id = some victim.id) :
    resolveKill ctx db (some tok) (some killer.id) "confirm" =
      resolveKillConfirmed ctx db victim killer := by
  have hconf : strToLower "confirm" = "confirm" := by decide
  simp only [resolveKill, if_neg htok, hsess, hkill, hvstat, hkstat, htar,
    hconf, ne_eq, not_true_eq_false, if_false]

/-- C2: in an active game with more than two alive players whose target
relation is a single cycle, a confirmed kill resolution removes exactly the
victim from the alive set, marks it eliminated, and the remaining alive
players again carry exactly one cycle. -/
theorem claim2_elimination_preserves_cycle
    (ctx : Ctx) (db : DB) (g : String) (tok : String) (victim killer : Player)
    (hids : (db.players.map Player.id).Nodup)
    (htok : ¬ strTrim tok = "")
    (hsess : getPlayerBySession db tok = some victim)
    (hvstat : victim.status = PStatus.alive)
    (hvg : victim.game_id = g)
    (hkill : getPlayerById db killer.id = some killer)
    (hkstat : killer.status = PStatus.alive)
    (hkg : killer.game_id = g)
    (htar : killer.target_id = some victim.id)
    (hgame : (getGameById db g).map Game.status = some GStatus.active)
    (hinv : CycleInv db g)
    (hn : 2 < (aliveIdsOf db g).length) :
    CycleInv (resolveKill ctx db (some tok) (some killer.id) "confirm").1 g ∧
    (∀ x, x ∈ aliveIdsOf (resolveKill ctx db (some tok) (some killer.id) "confirm").1 g ↔
      (x ∈ aliveIdsOf db g ∧ x ≠ victim.id)) ∧
    (getPlayerById (resolveKill ctx db (some tok) (some killer.id) "confirm").1
        victim.id).map Player.status = some PStatus.eliminated := by
  have hstep := resolveKill_confirm_eq ctx db tok victim killer htok hsess
    hvstat hkill hkstat htar
  have hvmem : victim ∈ db.players := List.mem_of_find?_eq_some hsess
  have hvid : getPlayerById db victim.id = some victim :=
    getPlayerById_of_mem db hids hvmem
  have hkmem : killer ∈ db.players := List.mem_of_find?_eq_some hkill
  obtain ⟨l, hlnd, hlperm, hltar⟩ := hinv
  have hlmem : ∀ x, x ∈ l ↔ x ∈ aliveIdsOf db g := fun x => hlperm.mem_iff
  have hvalive : victim.id ∈ aliveIdsOf db g :=
    (mem_aliveIdsOf db g victim.id).mpr ⟨victim, hvmem, rfl, hvg, hvstat⟩
  have hkalive : killer.id ∈ aliveIdsOf db g :=
    (mem_aliveIdsOf db g killer.id).mpr ⟨killer, hkmem, rfl, hkg, hkstat⟩
  have hvl : victim.id ∈ l := (hlmem _).mpr hvalive
  have hkl : killer.id ∈ l := (hlmem _).mpr hkalive
  obtain ⟨l₁, l₂, rfl⟩ := List.append_of_mem hvl
  have hlen : (l₁ ++ victim.id :: l₂).length = (aliveIdsOf db g).length :=
    hlperm.length_eq
  have h3 : 3 ≤ (l₁ ++ victim.id :: l₂).length := by omega
  have hkcy : cycleTarget (l₁ ++ victim.id :: l₂) killer.id = some victim.id := by
    rw [← hltar killer.id hkl]
    unfold targetRel
    rw [hkill, Option.some_bind, htar]
  obtain ⟨hnd', hk'mem, hvnek, hmem', hpoint⟩ :=
    cycleTarget_contract l₁ l₂ victim.id killer.id hlnd h3 hkcy
  have hvt : victim.target_id = cycleTarget (l₁ ++ victim.id :: l₂) victim.id := by
    have h := hltar victim.id hvl
    unfold targetRel at h
    rw [hvid, Option.some_bind] at h
    exact h
  have hvtk : victim.target_id ≠ some killer.id := by
    rw [hvt]; exact hvnek
  have halive4 : ∀ x, x ∈ aliveIdsOf (elimState ctx db victim killer) g ↔
      (x ∈ aliveIdsOf db g ∧ x ≠ victim.id) :=
    aliveIdsOf_elimState ctx db victim killer g
  have hids4 : ((elimState ctx db victim killer).players.map Player.id).Nodup := by
    rw [elimState_ids]; exact hids
  have hand4 : (aliveIdsOf (elimState ctx db victim killer) g).Nodup :=
    aliveIdsOf_nodup _ hids4 g
  have hmem4 : ∀ x, x ∈ (l₂ ++ l₁) ↔
      x ∈ aliveIdsOf (elimState ctx db victim killer) g := by
    intro x
    rw [halive4 x, hmem' x, hlmem x]
  have hperm4 : (l₂ ++ l₁) ~ aliveIdsOf (elimState ctx db victim killer) g :=
    (List.perm_ext_iff_of_nodup hnd' hand4).mpr hmem4
  have hlen4 : (aliveIdsOf (elimState ctx db victim killer) g).length =
      (l₂ ++ l₁).length := hperm4.symm.length_eq
  have hllen : (l₂ ++ l₁).length + 1 = (l₁ ++ victim.id :: l₂).length := by
    rw [List.length_append, List.length_append, List.length_cons]
    omega
  have hbranch : (listAlivePlayers (elimState ctx db victim killer)
      victim.game_id).length ≠ 1 := by
    rw [hvg, length_listAlivePlayers]
    omega
  have hfst : (resolveKillConfirmed ctx db victim killer).1 =
      elimState ctx db victim killer :=
    resolveKillConfirmed_fst_of_ne_one ctx db victim killer hbranch
  rw [hstep, hfst]
  refine ⟨⟨l₂ ++ l₁, hnd', hperm4, ?_⟩, halive4, ?_⟩
  · intro x hx
    rw [targetRel_elimState]
    have hxl := (hmem' x).mp hx
    have hxa : x ∈ aliveIdsOf db g := (hlmem x).mp hxl.1
    obtain ⟨p, hpmem, hpid, hpg, hpstat⟩ := (mem_aliveIdsOf db g x).mp hxa
    have hpx : getPlayerById db x = some p := by
      rw [← hpid]; exact getPlayerById_of_mem db hids hpmem
    rw [hpx, Option.some_bind, hpoint x hx]
    by_cases hxk : x = killer.id
    · rw [if_pos (by rw [hpid]; exact hxk), if_pos hxk, if_neg hvtk, hvt]
    · rw [if_neg (by rw [hpid]; exact hxk), if_neg hxk]
      have h := hltar x hxl.1
      unfold targetRel at h
      rw [hpx, Option.some_bind] at h
      exact h
  · rw [getPlayerById_elimState, hvid, Option.map_map]
    show some ((elimUpdate victim killer victim).status) = _
    rw [elimUpdate_status, if_pos rfl]

/-! ### Concrete fixtures used by witnesses and counterexamples -/

def ctxA : Ctx :=
  { online := fun _ => true, sessionOnline := fun _ => true,
    hashPin := fun s => String.append s "#", newKillId := 100, now := 50,
    newToken := "freshtok", randCycle := fun _ => 0, randTasks := fun _ => 0,
    randPick := fun _ => 0, randFinal := fun _ => 0 }

def gameC2 : Game :=
  { id := "GAME01", creator_session := "cs", status := GStatus.active,
    task_pool := ["t1"] }

def aliceC2 : Player :=
  { id := 1, game_id := "GAME01", name := "Alice", session_token := some "tA",
    pin_code := none, target_id := some 2, task := some "t1",
    status := PStatus.alive, joined_at := some 1 }

def bobC2 : Player :=
  { id := 2, game_id := "GAME01", name := "Bob", session_token := some "tB",
    pin_code := none, target_id := some 3, task := some "t1",
    status := PStatus.alive, joined_at := some 1 }

def carolC2 : Player :=
  { id := 3, game_id := "GAME01", name := "Carol", session_token := some "tC",
    pin_code := none, target_id := some 1, task := some "t1",
    status := PStatus.alive, joined_at := some 1 }

def dbC2 : DB :=
  { games := [gameC2], players := [aliceC2, bobC2, carolC2], kills := [] }

/-- Witness for C2: Alice (targeting Bob) eliminates Bob in a 3-cycle
Alice to Bob to Carol to Alice. -/
theorem claim2_witness :
    CycleInv (resolveKill ctxA dbC2 (some "tB") (some 1) "confirm").1 "GAME01" ∧
    (∀ x, x ∈ aliveIdsOf (resolveKill ctxA dbC2 (some "tB") (some 1) "confirm").1
        "GAME01" ↔ (x ∈ aliveIdsOf dbC2 "GAME01" ∧ x ≠ 2)) ∧
    (getPlayerById (resolveKill ctxA dbC2 (some "tB") (some 1) "confirm").1
        2).map Player.status = some PStatus.eliminated :=
  claim2_elimination_preserves_cycle ctxA dbC2 "GAME01" "tB" bobC2 aliceC2
    (by decide) (by decide) (by decide) (by decide) (by decide) (by decide)
    (by decide) (by decide) (by decide) (by decide)
    ⟨[1, 2, 3], by decide, by decide, by decide⟩ (by decide)

def gameC3 : Game :=
  { id := "GAME02", creator_session := "cs2", status := GStatus.active,
    task_pool := ["task one"] }

def aliceC3 : Player :=
  { id := 1, game_id := "GAME02", name := "Alice", session_token := some "cA",
    pin_code := none, target_id := some 2, task := some "task one",
    status := PStatus.alive, joined_at := some 1 }

def bobC3 : Player :=
  { id := 2, game_id := "GAME02", name := "Bob", session_token := some "cB",
    pin_code := none, target_id := some 1, task := some "task one",
    status := PStatus.alive, joined_at := some 1 }

def dbC3 : DB := { games := [gameC3], players := [aliceC3, bobC3], kills := [] }

/-- C3: in a 2-player active game where Alice and Bob target each other, a
confirmed kill resolution (Bob, the session holder, confirms Alice's kill)
eliminates Bob, nulls Alice's target (Bob's target was Alice), finishes the
game, and reports Alice, the single remaining alive player, as winner. -/
theorem claim3_two_player_finish :
    (getPlayerById (resolveKill ctxA dbC3 (some "cB") (some 1) "confirm").1
        2).map Player.status = some PStatus.eliminated ∧
    (getPlayerById (resolveKill ctxA dbC3 (some "cB") (some 1) "confirm").1
        1).map Player.target_id = some none ∧
    (getGameById (resolveKill ctxA dbC3 (some "cB") (some 1) "confirm").1
        "GAME02").map Game.status = some GStatus.finished ∧
    (listAlivePlayers (resolveKill ctxA dbC3 (some "cB") (some 1) "confirm").1
        "GAME02").map Player.name = ["Alice"] ∧
    (Dest.room "GAME02", Msg.gameOver 1 "Alice") ∈
      (resolveKill ctxA dbC3 (some "cB") (some 1) "confirm").2 := by
  decide

/-! ### C4: resolve-kill and game status -/

def gameC4 : Game :=
  { id := "GAME03", creator_session := "cs3", status := GStatus.finished,
    task_pool := ["t"] }

def aliceC4 : Player :=
  { id := 1, game_id := "GAME03", name := "Alice", session_token := some "dA",
    pin_code := none, target_id := some 2, task := some "t",
    status := PStatus.alive, joined_at := some 1 }

def bobC4 : Player :=
  { id := 2, game_id := "GAME03", name := "Bob", session_token := some "dB",
    pin_code := none, target_id := some 1, task := some "t",
    status := PStatus.alive, joined_at := some 1 }

def dbC4 : DB := { games := [gameC4], players := [aliceC4, bobC4], kills := [] }

/-- Counterexample to C4 as stated: the resolve-kill handler never checks
the game status, so against this `finished` game a confirmed resolve-kill
is not rejected: it mutates state (Bob becomes eliminated and a kill record
is appended). -/
theorem claim4_counterexample :
    (getGameById dbC4 "GAME03").map Game.status = some GStatus.finished ∧
    (resolveKill ctxA dbC4 (some "dB") (some 1) "confirm").1 ≠ dbC4 ∧
    (getPlayerById (resolveKill ctxA dbC4 (some "dB") (some 1) "confirm").1
        2).map Player.status = some PStatus.eliminated := by
  decide

theorem mem_of_length_le_one {l : List Nat} (h : l.length ≤ 1) {a b : Nat}
    (ha : a ∈ l) (hb : b ∈ l) : a = b := by
  cases l with
  | nil => cases ha
  | cons x t =>
    cases t with
    | nil =>
      rw [List.mem_singleton] at ha hb
      rw [ha, hb]
    | cons y r => simp at h

/-- C4 amended: the handler performs no game-status check at all; it
requires the victim (session holder) alive, the killer found and alive, and
the killer's target equal to the victim, rejecting with no state change
otherwise.  In every reachable lobby state (no targets assigned yet) and
every reachable finished state (at most one alive player, no player
targeting itself), a resolve-kill request whose killer belongs to the same
game is rejected and changes nothing. -/
theorem claim4_amended :
    (∀ ctx db tok kid ans victim,
      ¬ strTrim tok = "" →
      getPlayerBySession db tok = some victim →
      victim.status ≠ PStatus.alive →
      resolveKill ctx db (some tok) (some kid) ans =
        (db, [(Dest.requester,
          Msg.errorMsg "Only alive targets can resolve a kill.")])) ∧
    (∀ ctx db tok kid ans victim killer,
      ¬ strTrim tok = "" →
      getPlayerBySession db tok = some victim →
      victim.status = PStatus.alive →
      getPlayerById db kid = some killer →
      killer.status ≠ PStatus.alive →
      resolveKill ctx db (some tok) (some kid) ans =
        (db, [(Dest.requester, Msg.errorMsg "Killer is no longer alive.")])) ∧
    (∀ ctx db tok kid ans victim killer,
      ¬ strTrim tok = "" →
      getPlayerBySession db tok = some victim →
      victim.status = PStatus.alive →
      getPlayerById db kid = some killer →
      killer.status = PStatus.alive →
      killer.target_id ≠ some victim.id →
      resolveKill ctx db (some tok) (some kid) ans =
        (db, [(Dest.requester,
          Msg.errorMsg "You are not their current target.")])) ∧
    (∀ ctx db tok kid ans victim game,
      ¬ strTrim tok = "" →
      getPlayerBySession db tok = some victim →
      getGameById db victim.game_id = some game →
      game.status = GStatus.lobby →
      (∀ p ∈ db.players, p.game_id = victim.game_id → p.target_id = none) →
      (∀ killer, getPlayerById db kid = some killer →
        killer.game_id = victim.game_id) →
      (resolveKill ctx db (some tok) (some kid) ans).1 = db) ∧
    (∀ ctx db tok kid ans victim game,
      ¬ strTrim tok = "" →
      getPlayerBySession db tok = some victim →
      getGameById db victim.game_id = some game →
      game.status = GStatus.finished →
      (aliveIdsOf db victim.game_id).length ≤ 1 →
      (∀ p ∈ db.players, p.target_id ≠ some p.id) →
      (∀ killer, getPlayerById db kid = some killer →
        killer.game_id = victim.game_id) →
      (resolveKill ctx db (some tok) (some kid) ans).1 = db) := by
  refine ⟨?_, ?_, ?_, ?_, ?_⟩
  · intro ctx db tok kid ans victim htok hsess hv
    simp only [resolveKill, if_neg htok, hsess]
    rw [if_pos hv]
  · intro ctx db tok kid ans victim killer htok hsess hv hk hks
    simp only [resolveKill, if_neg htok, hsess, hk]
    rw [if_neg (by simp [hv]), if_pos hks]
  · intro ctx db tok kid ans victim killer htok hsess hv hk hks htar
    simp only [resolveKill, if_neg htok, hsess, hk]
    rw [if_neg (by simp [hv]), if_neg (by simp [hks]), if_pos htar]
  · intro ctx db tok kid ans victim game htok hsess hgame hlobby htargets hkg
    simp only [resolveKill, if_neg htok, hsess]
    by_cases hv : victim.status = PStatus.alive
    · rw [if_neg (by simp [hv])]
      cases hk : getPlayerById db kid with
      | none => rfl
      | some killer =>
        simp only [hk]
        by_cases hks : killer.status = PStatus.alive
        · rw [if_neg (by simp [hks])]
          have hkt : killer.target_id = none :=
            htargets killer (List.mem_of_find?_eq_some hk) (hkg killer hk)
          rw [if_pos (by simp [hkt])]
        · rw [if_pos hks]
    · rw [if_pos hv]
  · intro ctx db tok kid ans victim game htok hsess hgame hfin halive hself hkg
    simp only [resolveKill, if_neg htok, hsess]
    by_cases hv : victim.status = PStatus.alive
    · rw [if_neg (by simp [hv])]
      cases hk : getPlayerById db kid with
      | none => rfl
      | some killer =>
        simp only [hk]
        by_cases hks : killer.status = PStatus.alive
        · rw [if_neg (by simp [hks])]
          have hvmem : victim ∈ db.players := List.mem_of_find?_eq_some hsess
          have hkmem : killer ∈ db.players := List.mem_of_find?_eq_some hk
          have hva : victim.id ∈ aliveIdsOf db victim.game_id :=
            (mem_aliveIdsOf db victim.game_id victim.id).mpr
              ⟨victim, hvmem, rfl, rfl, hv⟩
          have hka : killer.id ∈ aliveIdsOf db victim.game_id :=
            (mem_aliveIdsOf db victim.game_id killer.id).mpr
              ⟨killer, hkmem, rfl, hkg killer hk, hks⟩
          have hid : killer.id = victim.id := mem_of_length_le_one halive hka hva
          have hne : killer.target_id ≠ some victim.id := by
            rw [← hid]
            exact hself killer hkmem
          rw [if_pos hne]
        · rw [if_pos hks]
    · rw [if_pos hv]

/-- Witness for the amended C4: Carol (targeting Alice) is named as killer
of Bob, who is not her target, so the request is rejected unchanged. -/
theorem claim4_amended_witness :
    resolveKill ctxA dbC2 (some "tB") (some 3) "confirm" =
      (dbC2, [(Dest.requester,
        Msg.errorMsg "You are not their current target.")]) :=
  claim4_amended.2.2.1 ctxA dbC2 "tB" 3 "confirm" bobC2 carolC2
    (by decide) (by decide) (by decide) (by decide) (by decide) (by decide)

/-! ### C5: start-game on a non-lobby game -/

/-- Counterexample to C5 as stated: starting an already-active game with
the correct creator token is not answered with an error at all; the handler
re-broadcasts `game-started` to the room and leaves the state unchanged. -/
theorem claim5_counterexample :
    (getGameById dbC2 "GAME01").map Game.status = some GStatus.active ∧
    startGame ctxA dbC2 (some "GAME01") (some "cs") =
      (dbC2, [(Dest.room "GAME01", Msg.gameStateMsg "active"),
              (Dest.room "GAME01", Msg.gameStarted)]) ∧
    (∀ e ∈ (startGame ctxA dbC2 (some "GAME01") (some "cs")).2,
      ∀ s, e ≠ (Dest.requester, Msg.errorMsg s)) := by
  refine ⟨by decide, by decide, ?_⟩
  intro e he s
  have h2 : (startGame ctxA dbC2 (some "GAME01") (some "cs")).2 =
      [(Dest.room "GAME01", Msg.gameStateMsg "active"),
       (Dest.room "GAME01", Msg.gameStarted)] := by decide
  rw [h2] at he
  rcases List.mem_cons.mp he with rfl | he2
  · simp
  · rcases List.mem_cons.mp he2 with rfl | he3
    · simp
    · cases he3

/-- C5 amended: on a game that is already `active` or `finished` the
handler does not signal any error; it re-emits the started notifications to
the room and modifies nothing.  A wrong creator token and a lobby with
fewer than two alive players are rejected with the corresponding errors,
with no state change. -/
theorem claim5_amended :
    (∀ ctx db gc ct game,
      validateGameCode gc = true → ¬ ct = "" →
      getGameById db gc = some game →
      game.creator_session = ct →
      (game.status = GStatus.active ∨ game.status = GStatus.finished) →
      startGame ctx db (some gc) (some ct) =
        (db, [(Dest.room gc, Msg.gameStateMsg "active"),
              (Dest.room gc, Msg.gameStarted)])) ∧
    (∀ ctx db gc ct game,
      validateGameCode gc = true → ¬ ct = "" →
      getGameById db gc = some game →
      game.creator_session ≠ ct →
      startGame ctx db (some gc) (some ct) =
        (db, [(Dest.requester,
          Msg.errorMsg "Only the creator can start the game.")])) ∧
    (∀ ctx db gc ct game,
      validateGameCode gc = true → ¬ ct = "" →
      getGameById db gc = some game →
      game.creator_session = ct →
      game.status = GStatus.lobby →
      (listAlivePlayers db gc).length < 2 →
      startGame ctx db (some gc) (some ct) =
        (db, [(Dest.requester,
          Msg.errorMsg "Need at least 2 players to start.")])) := by
  refine ⟨?_, ?_, ?_⟩
  · intro ctx db gc ct game hval hct hgame hcs hst
    simp only [startGame, Option.getD_some, hgame]
    rw [if_neg (by simp [hval]), if_neg hct, if_neg (by simp [hcs]), if_pos hst]
  · intro ctx db gc ct game hval hct hgame hcs
    simp only [startGame, Option.getD_some, hgame]
    rw [if_neg (by simp [hval]), if_neg hct, if_pos hcs]
  · intro ctx db gc ct game hval hct hgame hcs hlobby hlen
    simp only [startGame, Option.getD_some, hgame]
    rw [if_neg (by simp [hval]), if_neg hct, if_neg (by simp [hcs]),
      if_neg (by simp [hlobby]), if_pos hlen]

/-- Witness for the amended C5: a wrong creator token is rejected. -/
theorem claim5_amended_witness :
    startGame ctxA dbC2 (some "GAME01") (some "wrong") =
      (dbC2, [(Dest.requester,
        Msg.errorMsg "Only the creator can start the game.")]) :=
  claim5_amended.2.1 ctxA dbC2 "GAME01" "wrong" gameC2
    (by decide) (by decide) (by decide) (by decide)

/-! ### C6: task distribution -/

/-- Counterexample to C6 as stated: a pool may contain the same task string
twice (create-game only strips blank lines), and then even with pool size
at least the player count the drawn tasks are not pairwise distinct. -/
theorem claim6_counterexample :
    2 ≤ (["a", "a"] : List String).length ∧
    ¬ (buildTasksToAssign ["a", "a"] 2
        (fun _ => 0) (fun _ => 0) (fun _ => 0)).Nodup := by
  decide

theorem length_buildPicks (tasks : List String) (m : Nat) (r : Nat → Nat) :
    (buildPicks tasks m r).length = m := by
  simp [buildPicks]

theorem buildPicks_subset (tasks : List String) (m : Nat) (r : Nat → Nat)
    (hne : tasks ≠ []) : ∀ t ∈ buildPicks tasks m r, t ∈ tasks := by
  intro t ht
  simp only [buildPicks, List.mem_map, List.mem_range] at ht
  obtain ⟨i, _, hi⟩ := ht
  have hlt : r i % tasks.length < tasks.length :=
    Nat.mod_lt _ (List.length_pos.mpr hne)
  rw [← hi, List.getD_eq_getElem?_getD, List.getElem?_eq_getElem hlt]
  exact List.getElem_mem hlt

/-- C6 amended: with a duplicate-free pool of at least `n` tasks the `n`
assigned tasks are pairwise distinct, all drawn from the pool.  With a
smaller non-empty pool, every pool task appears among the `n` assignments,
every assignment is drawn from the pool, and the final list is a
permutation of the whole pool plus the random fillers (so each pool task
keeps at least one copy). -/
theorem claim6_amended :
    (∀ (tasks : List String) (n : Nat) (r1 r2 r3 : Nat → Nat),
      tasks.Nodup → n ≤ tasks.length →
      (buildTasksToAssign tasks n r1 r2 r3).Nodup ∧
      (buildTasksToAssign tasks n r1 r2 r3).length = n ∧
      (∀ t ∈ buildTasksToAssign tasks n r1 r2 r3, t ∈ tasks)) ∧
    (∀ (tasks : List String) (n : Nat) (r1 r2 r3 : Nat → Nat),
      tasks ≠ [] → tasks.length < n →
      (buildTasksToAssign tasks n r1 r2 r3).length = n ∧
      (∀ t ∈ tasks, t ∈ buildTasksToAssign tasks n r1 r2 r3) ∧
      (∀ t ∈ buildTasksToAssign tasks n r1 r2 r3, t ∈ tasks) ∧
      buildTasksToAssign tasks n r1 r2 r3 ~
        tasks ++ buildPicks tasks (n - tasks.length) r2 ∧
      (∀ t, tasks.count t ≤ (buildTasksToAssign tasks n r1 r2 r3).count t)) := by
  constructor
  · intro tasks n r1 r2 r3 hnd hle
    have hsp : shuffleArray tasks r1 ~ tasks := shuffleArray_perm _ _
    have hnd1 : (shuffleArray tasks r1).Nodup := hsp.nodup_iff.mpr hnd
    unfold buildTasksToAssign
    rw [if_pos hle]
    refine ⟨List.Nodup.sublist (List.take_sublist n _) hnd1, ?_, ?_⟩
    · rw [List.length_take, hsp.length_eq]
      omega
    · intro t ht
      exact hsp.mem_iff.mp (List.take_subset n _ ht)
  · intro tasks n r1 r2 r3 hne hlt
    have hsp : shuffleArray tasks r1 ~ tasks := shuffleArray_perm _ _
    unfold buildTasksToAssign
    rw [if_neg (by omega)]
    have hperm : shuffleArray
        (shuffleArray tasks r1 ++ buildPicks tasks (n - tasks.length) r2) r3 ~
        tasks ++ buildPicks tasks (n - tasks.length) r2 :=
      (shuffleArray_perm _ _).trans (hsp.append_right _)
    refine ⟨?_, ?_, ?_, hperm, ?_⟩
    · rw [hperm.length_eq, List.length_append, length_buildPicks]
      omega
    · intro t ht
      exact hperm.mem_iff.mpr (List.mem_append_left _ ht)
    · intro t ht
      rcases List.mem_append.mp (hperm.mem_iff.mp ht) with h | h
      · exact h
      · exact buildPicks_subset tasks (n - tasks.length) r2 hne t h
    · intro t
      rw [hperm.count_eq, List.count_append]
      omega

/-- Witness for the amended C6, both regimes at concrete pools. -/
theorem claim6_amended_witness :
    ((buildTasksToAssign ["x", "y"] 2
        (fun _ => 0) (fun _ => 0) (fun _ => 0)).Nodup ∧
     (buildTasksToAssign ["x", "y"] 2
        (fun _ => 0) (fun _ => 0) (fun _ => 0)).length = 2 ∧
     (∀ t ∈ buildTasksToAssign ["x", "y"] 2
        (fun _ => 0) (fun _ => 0) (fun _ => 0), t ∈ (["x", "y"] : List String))) ∧
    ((buildTasksToAssign ["x"] 3
        (fun _ => 0) (fun _ => 0) (fun _ => 0)).length = 3 ∧
     (∀ t ∈ (["x"] : List String), t ∈ buildTasksToAssign ["x"] 3
        (fun _ => 0) (fun _ => 0) (fun _ => 0)) ∧
     (∀ t ∈ buildTasksToAssign ["x"] 3
        (fun _ => 0) (fun _ => 0) (fun _ => 0), t ∈ (["x"] : List String)) ∧
     buildTasksToAssign ["x"] 3 (fun _ => 0) (fun _ => 0) (fun _ => 0) ~
       ["x"] ++ buildPicks ["x"] (3 - (["x"] : List String).length) (fun _ => 0) ∧
     (∀ t, (["x"] : List String).count t ≤
       (buildTasksToAssign ["x"] 3
         (fun _ => 0) (fun _ => 0) (fun _ => 0)).count t)) :=
  ⟨claim6_amended.1 ["x", "y"] 2 (fun _ => 0) (fun _ => 0) (fun _ => 0)
      (by decide) (by decide),
   claim6_amended.2 ["x"] 3 (fun _ => 0) (fun _ => 0) (fun _ => 0)
      (by decide) (by decide)⟩

/-! ### C7: kill-count rows -/

instance : IsTrans (String × Nat) countOrd where
  trans := by
    intro a b c hab hbc
    rcases hab with h1 | ⟨h1, h1l⟩ <;> rcases hbc with h2 | ⟨h2, h2l⟩
    · exact Or.inl (by omega)
    · exact Or.inl (by omega)
    · exact Or.inl (by omega)
    · exact Or.inr ⟨by omega, lexLe_trans h1l h2l⟩

instance : IsTotal (String × Nat) countOrd where
  total := by
    intro a b
    rcases Nat.lt_trichotomy a.2 b.2 with h | h | h
    · exact Or.inr (Or.inl h)
    · rcases lexLe_total a.1.data b.1.data with hl | hl
      · exact Or.inl (Or.inr ⟨h, hl⟩)
      · exact Or.inr (Or.inr ⟨h.symm, hl⟩)
    · exact Or.inl (Or.inl h)

instance : IsAntisymm (String × Nat) countOrd where
  antisymm := by
    intro a b hab hba
    rcases hab with h1 | ⟨h1, h1l⟩ <;> rcases hba with h2 | ⟨h2, h2l⟩
    · exact absurd (Nat.lt_trans h1 h2) (Nat.lt_irrefl _)
    · omega
    · omega
    · have hdat : a.1.data = b.1.data := lexLe_antisymm h1l h2l
      have hname : a.1 = b.1 := String.toList_inj.mp hdat
      exact Prod.ext hname h1

def gameC7 : Game :=
  { id := "GAME05", creator_session := "c5", status := GStatus.finished,
    task_pool := ["t"] }

def mkPlayerC7 (i : Nat) (nm : String) (st : PStatus) : Player :=
  { id := i, game_id := "GAME05", name := nm, session_token := none,
    pin_code := none, target_id := none, task := none, status := st,
    joined_at := none }

def mkKillC7 (i killer victim ts : Nat) : KillRec :=
  { id := i, game_id := "GAME05", killer_id := killer, victim_id := victim,
    task := none, timestamp := ts }

def dbC7 : DB :=
  { games := [gameC7],
    players :=
      [mkPlayerC7 11 "Alice" PStatus.alive,
       mkPlayerC7 12 "Bob" PStatus.eliminated,
       mkPlayerC7 13 "Zoe" PStatus.eliminated,
       mkPlayerC7 14 "Charlie" PStatus.eliminated],
    kills :=
      [mkKillC7 1 11 12 1, mkKillC7 2 11 13 2, mkKillC7 3 11 14 3,
       mkKillC7 4 12 11 4, mkKillC7 5 12 13 5, mkKillC7 6 12 14 6,
       mkKillC7 7 13 11 7, mkKillC7 8 13 12 8] }

/-- C7: the summary kill counts contain one row per player of the game with
the number of kill records naming it as killer (zero included), are sorted
by count descending with ties broken by name ascending, and that order is a
total order, so the output is the unique sorted arrangement; the concrete
example Alice(3), Bob(3), Zoe(2), Charlie(0) renders exactly in that
order. -/
theorem claim7_kill_counts :
    (∀ db g,
      killCountRows db g ~
        (db.players.filter (fun p => p.game_id == g)).map
          (fun p => (p.name,
            (db.kills.filter (fun h => h.killer_id == p.id)).length)) ∧
      List.Sorted countOrd (killCountRows db g) ∧
      (∀ other : List (String × Nat),
        other ~ (db.players.filter (fun p => p.game_id == g)).map
          (fun p => (p.name,
            (db.kills.filter (fun h => h.killer_id == p.id)).length)) →
        List.Sorted countOrd other → other = killCountRows db g)) ∧
    killCountRows dbC7 "GAME05" =
      [("Alice", 3), ("Bob", 3), ("Zoe", 2), ("Charlie", 0)] := by
  constructor
  · intro db g
    refine ⟨List.perm_insertionSort countOrd _,
      List.sorted_insertionSort countOrd _, ?_⟩
    intro other hperm hsort
    exact List.eq_of_perm_of_sorted
      (hperm.trans (List.perm_insertionSort countOrd _).symm) hsort
      (List.sorted_insertionSort countOrd _)
  · decide

/-- Witness for C7's quantified part at the concrete store. -/
theorem claim7_witness :
    killCountRows dbC7 "GAME05" ~
      (dbC7.players.filter (fun p => p.game_id == "GAME05")).map
        (fun p => (p.name,
          (dbC7.kills.filter (fun h => h.killer_id == p.id)).length)) ∧
    List.Sorted countOrd (killCountRows dbC7 "GAME05") ∧
    (∀ other : List (String × Nat),
      other ~ (dbC7.players.filter (fun p => p.game_id == "GAME05")).map
        (fun p => (p.name,
          (dbC7.kills.filter (fun h => h.killer_id == p.id)).length)) →
      List.Sorted countOrd other → other = killCountRows dbC7 "GAME05") :=
  claim7_kill_counts.1 dbC7 "GAME05"

/-! ### C8: uniform reclaim failure -/

/-- The cancel step of the reclaim handler only clears a session token, so
the `pin_code` of the row found by the reclaim lookup is unaffected. -/
theorem reclaimCancelStep_find_pin (db : DB) (sock : Option String)
    (gc nm : String) :
    ((reclaimCancelStep db sock gc nm).1.players.find?
        (predReclaim gc nm)).map Player.pin_code =
      (db.players.find? (predReclaim gc nm)).map Player.pin_code := by
  cases sock with
  | none => rfl
  | some stok =>
    simp only [reclaimCancelStep]
    cases hcp : getPlayerBySession db stok with
    | none => rfl
    | some cp =>
      show ((if cp.game_id = gc ∧ cp.name ≠ nm then
          (updatePlayers db cp.id (fun p => { p with session_token := none }),
           [(Dest.requester, Msg.identityCanceled cp.name)])
        else (db, ([] : List Emit))).1.players.find?
          (predReclaim gc nm)).map Player.pin_code =
        (db.players.find? (predReclaim gc nm)).map Player.pin_code
      by_cases hcond : cp.game_id = gc ∧ cp.name ≠ nm
      · rw [if_pos hcond]
        show ((db.players.map (fun p =>
            if p.id = cp.id then { p with session_token := none } else p)).find?
            (predReclaim gc nm)).map Player.pin_code = _
        have hinv : ∀ p, predReclaim gc nm
            (if p.id = cp.id then { p with session_token := none } else p) =
            predReclaim gc nm p := by
          intro p
          by_cases hp : p.id = cp.id <;> simp [predReclaim, hp]
        rw [find?_map_comm db.players _ _ hinv]
        cases hres : db.players.find? (predReclaim gc nm) with
        | none => rfl
        | some r => by_cases hr : r.id = cp.id <;> simp [hr]
      · rw [if_neg hcond]

/-- The emissions of the cancel step depend on the stored rows only through
the game and name bound to the requesting socket session. -/
theorem reclaimCancelStep_ems_eq (dbA dbB : DB) (sock : Option String)
    (gc nm : String)
    (hcur : ∀ s, sock = some s →
      (getPlayerBySession dbA s).map (fun p => (p.game_id, p.name)) =
        (getPlayerBySession dbB s).map (fun p => (p.game_id, p.name))) :
    (reclaimCancelStep dbA sock gc nm).2 =
      (reclaimCancelStep dbB sock gc nm).2 := by
  cases sock with
  | none => rfl
  | some stok =>
    have h := hcur stok rfl
    simp only [reclaimCancelStep]
    cases hA : getPlayerBySession dbA stok with
    | none =>
      cases hB : getPlayerBySession dbB stok with
      | none => rfl
      | some q => rw [hA, hB] at h; simp at h
    | some p =>
      cases hB : getPlayerBySession dbB stok with
      | none => rw [hA, hB] at h; simp at h
      | some q =>
        rw [hA, hB] at h
        simp only [Option.map_some', Option.some.injEq, Prod.mk.injEq] at h
        obtain ⟨h1, h2⟩ := h
        show (if p.game_id = gc ∧ p.name ≠ nm then
            (updatePlayers dbA p.id (fun r => { r with session_token := none }),
             [(Dest.requester, Msg.identityCanceled p.name)])
          else (dbA, ([] : List Emit))).2 =
          (if q.game_id = gc ∧ q.name ≠ nm then
            (updatePlayers dbB q.id (fun r => { r with session_token := none }),
             [(Dest.requester, Msg.identityCanceled q.name)])
          else (dbB, ([] : List Emit))).2
        by_cases hcond : p.game_id = gc ∧ p.name ≠ nm
        · have hcond2 : q.game_id = gc ∧ q.name ≠ nm := by
            rw [← h1, ← h2]; exact hcond
          rw [if_pos hcond, if_pos hcond2, h2]
        · have hcond2 : ¬ (q.game_id = gc ∧ q.name ≠ nm) := by
            rw [← h1, ← h2]; exact hcond
          rw [if_neg hcond, if_neg hcond2]

/-- Whenever a well-formed reclaim request fails because the lookup finds no
matching row (wrong name or no stored PIN) or because the stored hash
differs from the supplied hash, the handler returns the cancel-step state
with the cancel-step emissions followed by one uniform failure error. -/
theorem reclaim_fail_shape (ctx : Ctx) (db : DB) (sock : Option String)
    (gc nm pin : String) (game : Game)
    (hv1 : validateGameCode gc = true) (hv2 : validatePlayerName nm = true)
    (hv3 : validatePin pin = true) (hg : getGameById db gc = some game)
    (hfail : (db.players.find? (predReclaim gc nm)).map Player.pin_code = none ∨
      ∃ pc, (db.players.find? (predReclaim gc nm)).map Player.pin_code = some pc ∧
        pc ≠ some (ctx.hashPin pin)) :
    reclaimIdentity ctx db sock gc nm pin =
      ((reclaimCancelStep db sock gc nm).1,
       (reclaimCancelStep db sock gc nm).2 ++
         [(Dest.requester, Msg.errorMsg "Reclaim failed.")]) := by
  have hpin := reclaimCancelStep_find_pin db sock gc nm
  rcases hfail with hnone | ⟨pc, hpc, hne⟩
  · have hfind : (reclaimCancelStep db sock gc nm).1.players.find?
        (predReclaim gc nm) = none := by
      cases hf : (reclaimCancelStep db sock gc nm).1.players.find?
          (predReclaim gc nm) with
      | none => rfl
      | some q => rw [hf, hnone] at hpin; simp at hpin
    simp [reclaimIdentity, hv1, hv2, hv3, hg, hfind]
  · have hpin2 : ((reclaimCancelStep db sock gc nm).1.players.find?
        (predReclaim gc nm)).map Player.pin_code = some pc := hpin.trans hpc
    cases hf : (reclaimCancelStep db sock gc nm).1.players.find?
        (predReclaim gc nm) with
    | none => rw [hf] at hpin2; simp at hpin2
    | some q =>
      rw [hf] at hpin2
      have hq : q.pin_code = pc := by simpa using hpin2
      simp [reclaimIdentity, hv1, hv2, hv3, hg, hf, hq, hne]

/-- C8: reclaim fails uniformly on any credential mismatch.  For any two
well-formed reclaim attempts against the same game code and player name,
made from a socket whose bound identity looks the same in both stores, one
failing in store `db1` and one failing in store `db2` for any of the three
mismatch causes (no such named row, no stored PIN hash, or a stored hash
differing from the supplied PIN hash), the emitted responses are identical
and end in the single uniform message `Reclaim failed.`; the failure cause
cannot be distinguished from the response. -/
theorem claim8_reclaim_uniform (ctx1 ctx2 : Ctx) (db1 db2 : DB)
    (sock : Option String) (gc nm pin1 pin2 : String) (game1 game2 : Game)
    (hv1 : validateGameCode gc = true) (hv2 : validatePlayerName nm = true)
    (hp1 : validatePin pin1 = true) (hp2 : validatePin pin2 = true)
    (hg1 : getGameById db1 gc = some game1)
    (hg2 : getGameById db2 gc = some game2)
    (hcur : ∀ s, sock = some s →
      (getPlayerBySession db1 s).map (fun p => (p.game_id, p.name)) =
        (getPlayerBySession db2 s).map (fun p => (p.game_id, p.name)))
    (hfail1 : (db1.players.find? (predReclaim gc nm)).map Player.pin_code = none ∨
      ∃ pc, (db1.players.find? (predReclaim gc nm)).map Player.pin_code = some pc ∧
        pc ≠ some (ctx1.hashPin pin1))
    (hfail2 : (db2.players.find? (predReclaim gc nm)).map Player.pin_code = none ∨
      ∃ pc, (db2.players.find? (predReclaim gc nm)).map Player.pin_code = some pc ∧
        pc ≠ some (ctx2.hashPin pin2)) :
    (reclaimIdentity ctx1 db1 sock gc nm pin1).2 =
      (reclaimIdentity ctx2 db2 sock gc nm pin2).2 ∧
    (reclaimIdentity ctx1 db1 sock gc nm pin1).2.getLast? =
      some (Dest.requester, Msg.errorMsg "Reclaim failed.") := by
  rw [reclaim_fail_shape ctx1 db1 sock gc nm pin1 game1 hv1 hv2 hp1 hg1 hfail1,
      reclaim_fail_shape ctx2 db2 sock gc nm pin2 game2 hv1 hv2 hp2 hg2 hfail2]
  constructor
  · show (reclaimCancelStep db1 sock gc nm).2 ++
        [(Dest.requester, Msg.errorMsg "Reclaim failed.")] =
      (reclaimCancelStep db2 sock gc nm).2 ++
        [(Dest.requester, Msg.errorMsg "Reclaim failed.")]
    rw [reclaimCancelStep_ems_eq db1 db2 sock gc nm hcur]
  · exact List.getLast?_concat _

def danaC8 : Player :=
  { id := 4, game_id := "GAME01", name := "Dana", session_token := none,
    pin_code := some "9999#", target_id := none, task := none,
    status := PStatus.notJoined, joined_at := none }

def dbC8 : DB :=
  { games := [gameC2], players := [aliceC2, bobC2, carolC2, danaC8],
    kills := [] }

/-- Witness for C8: reclaiming `Dana` in a store without any such player
(failure cause: no matching row) and in a store holding Dana with a
different stored hash (failure cause: wrong PIN) produces identical
responses ending in the uniform failure message. -/
theorem claim8_witness :
    (reclaimIdentity ctxA dbC2 none "GAME01" "Dana" "1234").2 =
      (reclaimIdentity ctxA dbC8 none "GAME01" "Dana" "1234").2 ∧
    (reclaimIdentity ctxA dbC2 none "GAME01" "Dana" "1234").2.getLast? =
      some (Dest.requester, Msg.errorMsg "Reclaim failed.") :=
  claim8_reclaim_uniform ctxA ctxA dbC2 dbC8 none "GAME01" "Dana" "1234"
    "1234" gameC2 gameC2 (by decide) (by decide) (by decide) (by decide)
    (by decide) (by decide) (fun s h => nomatch h)
    (Or.inl (by decide))
    (Or.inr ⟨some "9999#", by decide, by decide⟩)

/-! ### C9: cancel-identity frame and reclaim after cancel -/

/-- The successful branch of cancel-identity in closed form. -/
theorem cancelIdentity_success (ctx : Ctx) (db : DB) (g tok : String)
    (game : Game) (player : Player)
    (hvg : validateGameCode g = true) (htok : ¬ tok = "")
    (hg : getGameById db g = some game)
    (hfind : db.players.find? (fun p => p.game_id == g &&
      p.session_token == some tok && p.status == PStatus.alive) = some player) :
    cancelIdentity ctx db (some g) (some tok) =
      (updatePlayers db player.id (fun p =>
        { p with status := PStatus.notJoined, session_token := none,
                 joined_at := none }),
       [(Dest.requester, Msg.gameStateMsg (gstatusStr game.status)),
        (Dest.requester, Msg.identityCanceled player.name),
        (Dest.room g, Msg.playerListUpdate)]) := by
  simp [cancelIdentity, hvg, htok, hg, hfind]

/-- C9: a successful cancel of the alive player bound to the session token
sets that player to not-joined and nulls only the session token and join
time; the identifier, game, name, PIN hash, target and task of every row
are unchanged, other rows are untouched, and the games and kill history are
untouched.  A cancel whose token is not bound to an alive player of the
game changes nothing and reports an error.  After a successful cancel, a
reclaim with the original PIN succeeds. -/
theorem claim9_cancel_frame (ctx : Ctx) (db : DB) (g tok : String)
    (game : Game)
    (hvg : validateGameCode g = true) (htok : ¬ tok = "")
    (hg : getGameById db g = some game) :
    (db.players.find? (fun p => p.game_id == g && p.session_token == some tok &&
        p.status == PStatus.alive) = none →
      cancelIdentity ctx db (some g) (some tok) =
        (db, [(Dest.requester,
          Msg.errorMsg "Invalid session or player not found")])) ∧
    (∀ player, db.players.find? (fun p => p.game_id == g &&
        p.session_token == some tok && p.status == PStatus.alive) = some player →
      ((cancelIdentity ctx db (some g) (some tok)).1.games = db.games ∧
       (cancelIdentity ctx db (some g) (some tok)).1.kills = db.kills) ∧
      (cancelIdentity ctx db (some g) (some tok)).2 =
        [(Dest.requester, Msg.gameStateMsg (gstatusStr game.status)),
         (Dest.requester, Msg.identityCanceled player.name),
         (Dest.room g, Msg.playerListUpdate)] ∧
      (∀ x q, getPlayerById db x = some q →
        ∃ q2, getPlayerById (cancelIdentity ctx db (some g) (some tok)).1 x =
            some q2 ∧
          q2.id = q.id ∧ q2.game_id = q.game_id ∧ q2.name = q.name ∧
          q2.pin_code = q.pin_code ∧ q2.target_id = q.target_id ∧
          q2.task = q.task ∧
          (q.id = player.id → q2.status = PStatus.notJoined ∧
            q2.session_token = none ∧ q2.joined_at = none) ∧
          (¬ q.id = player.id → q2 = q)) ∧
      (∀ ctx2 pin, validatePlayerName player.name = true →
        validatePin pin = true →
        player.pin_code = some (ctx2.hashPin pin) →
        db.players.find? (predReclaim g player.name) = some player →
        (Dest.requester,
          Msg.identityReclaimed ctx2.newToken player.name player.id) ∈
          (reclaimIdentity ctx2 (cancelIdentity ctx db (some g) (some tok)).1
            none g player.name pin).2)) := by
  constructor
  · intro hfind
    simp [cancelIdentity, hvg, htok, hg, hfind]
  · intro player hfind
    have hcs := cancelIdentity_success ctx db g tok game player hvg htok hg hfind
    refine ⟨⟨by rw [hcs]; try rfl, by rw [hcs]; try rfl⟩,
      by rw [hcs]; try rfl, ?_, ?_⟩
    · intro x q hq
      have hget : getPlayerById (cancelIdentity ctx db (some g) (some tok)).1 x =
          (getPlayerById db x).map (fun p => if p.id = player.id then
            { p with status := PStatus.notJoined, session_token := none,
                     joined_at := none } else p) := by
        rw [hcs]
        exact getPlayerById_updatePlayers db player.id (fun p =>
          { p with status := PStatus.notJoined, session_token := none,
                   joined_at := none }) (fun p => rfl) x
      rw [hq] at hget
      by_cases hqi : q.id = player.id
      · refine ⟨{ q with
            status := PStatus.notJoined
            session_token := none
            joined_at := none }, ?_, rfl, rfl, rfl, rfl, rfl, rfl, ?_, ?_⟩
        · rw [hget]; simp [hqi]
        · intro h2; exact ⟨rfl, rfl, rfl⟩
        · intro h2; exact absurd hqi h2
      · refine ⟨q, ?_, rfl, rfl, rfl, rfl, rfl, rfl, ?_, ?_⟩
        · rw [hget]; simp [hqi]
        · intro h2; exact absurd h2 hqi
        · intro h2; rfl
    · intro ctx2 pin hname hpv hpc hfind2
      have hg2 : getGameById (cancelIdentity ctx db (some g) (some tok)).1 g =
          some game := by
        rw [hcs]; exact hg
      have hfr : (cancelIdentity ctx db (some g) (some tok)).1.players.find?
          (predReclaim g player.name) = some { player with
            status := PStatus.notJoined, session_token := none,
            joined_at := none } := by
        rw [hcs]
        show (db.players.map (fun p => if p.id = player.id then
            { p with status := PStatus.notJoined, session_token := none,
                     joined_at := none } else p)).find?
            (predReclaim g player.name) = _
        have hinv : ∀ p, predReclaim g player.name (if p.id = player.id then
            { p with status := PStatus.notJoined, session_token := none,
                     joined_at := none } else p) =
            predReclaim g player.name p := by
          intro p; by_cases hp : p.id = player.id <;> simp [predReclaim, hp]
        rw [find?_map_comm db.players _ _ hinv, hfind2]
        simp
      simp [reclaimIdentity, hvg, hname, hpv, hg2, hfr, reclaimCancelStep, hpc]

def erinC9 : Player :=
  { id := 5, game_id := "GAME01", name := "Erin", session_token := some "tE",
    pin_code := some "1234#", target_id := none, task := none,
    status := PStatus.alive, joined_at := some 2 }

def dbC9 : DB :=
  { games := [gameC2], players := [aliceC2, bobC2, carolC2, erinC9],
    kills := [] }

/-- Witness for C9: cancelling Erin (alive, bound to token `tE`, stored PIN
hash `1234#`) emits the cancel responses, and a subsequent reclaim of the
name `Erin` with PIN `1234` succeeds. -/
theorem claim9_witness :
    (cancelIdentity ctxA dbC9 (some "GAME01") (some "tE")).2 =
      [(Dest.requester, Msg.gameStateMsg (gstatusStr gameC2.status)),
       (Dest.requester, Msg.identityCanceled erinC9.name),
       (Dest.room "GAME01", Msg.playerListUpdate)] ∧
    (Dest.requester,
      Msg.identityReclaimed ctxA.newToken erinC9.name erinC9.id) ∈
      (reclaimIdentity ctxA
        (cancelIdentity ctxA dbC9 (some "GAME01") (some "tE")).1
        none "GAME01" erinC9.name "1234").2 :=
  ⟨((claim9_cancel_frame ctxA dbC9 "GAME01" "tE" gameC2 (by decide) (by decide)
      (by decide)).2 erinC9 (by decide)).2.1,
   ((claim9_cancel_frame ctxA dbC9 "GAME01" "tE" gameC2 (by decide) (by decide)
      (by decide)).2 erinC9 (by decide)).2.2.2 ctxA "1234" (by decide)
      (by decide) (by decide) (by decide)⟩

/-! ### C10: claim-kill writes nothing -/

set_option maxHeartbeats 1600000 in
/-- C10: the claim-kill handler never mutates the persisted store: for every
input the games, players and kill history are returned unchanged, and the
only observable effect is a single emission, either an error to the
requester or a kill challenge to the target player. -/
theorem claim10_claimKill_pure (ctx : Ctx) (db : DB)
    (sessionToken gameCode : Option String) :
    (claimKill ctx db sessionToken gameCode).1 = db ∧
    ((∃ m, (claimKill ctx db sessionToken gameCode).2 =
        [(Dest.requester, Msg.errorMsg m)]) ∨
     (∃ tid kid kname ktask, (claimKill ctx db sessionToken gameCode).2 =
        [(Dest.player tid, Msg.killChallenge kid kname ktask)])) := by
  simp only [claimKill]
  repeat' split
  all_goals first
    | exact ⟨rfl, Or.inl ⟨_, rfl⟩⟩
    | exact ⟨rfl, Or.inr ⟨_, _, _, _, rfl⟩⟩

end KillerGame
